import Mathlib

/-!
# Verification of the robotic_teleop transport layer

Shallow embedding of the repository's three transport bindings
(`socket_teleop.py` client and server, `serial_teleop.py`) over the shared
`teleop_interface.py` contract, together with a model of the JSON wire
codec used by `send_command`/`receive_data` (Python's `json.dumps` with
default options, i.e. ASCII-escaping output and separators ", " / ": ",
and `json.loads`), the UTF-8 byte layer, and Python's `str.strip` as used
by the serial line framing.

All characters and bytes are modelled as `Nat` code units.  JSON numbers
are modelled as integers; float payloads are outside the model (the parser
rejects a fractional or exponent suffix, which the serializer never
emits).  Strings are lists of Unicode code points; well-formed command
mappings (`wfJson`) carry only valid Unicode scalar values, mirroring the
fact that a Python `str` holding lone surrogates is not a valid
JSON-representable text payload.
-/

namespace Teleop

/-- JSON-representable values exchanged as command/feedback messages.
Numbers are restricted to integers (see module comment). -/
inductive Json where
  | null
  | bool (b : Bool)
  | int (n : Int)
  | str (s : List Nat)
  | arr (elems : List Json)
  | obj (members : List (List Nat × Json))

/-- A Unicode scalar value: a code point that is not a surrogate. -/
def validScalar (c : Nat) : Bool :=
  if c < 55296 then true
  else if c ≤ 57343 then false
  else decide (c < 1114112)

/-- All code points of a JSON string are Unicode scalar values. -/
def wfStr (s : List Nat) : Bool :=
  s.all validScalar

mutual

/-- Well-formedness of a JSON value: every string is valid Unicode text. -/
def wfJson : Json → Bool
  | .null => true
  | .bool _ => true
  | .int _ => true
  | .str s => wfStr s
  | .arr xs => wfList xs
  | .obj ms => wfMembers ms

/-- Well-formedness of a list of JSON values. -/
def wfList : List Json → Bool
  | [] => true
  | x :: xs => wfJson x && wfList xs

/-- Well-formedness of a list of object members. -/
def wfMembers : List (List Nat × Json) → Bool
  | [] => true
  | m :: ms => wfStr m.1 && wfJson m.2 && wfMembers ms

end

/-- Lower-case hexadecimal digit character for a value below 16. -/
def hexDig (d : Nat) : Nat :=
  if d < 10 then 48 + d else 87 + d

/-- Four lower-case hex digit characters of a value below 65536,
as emitted by Python's json encoder in a `\uXXXX` escape. -/
def hex4 (n : Nat) : List Nat :=
  [hexDig (n / 4096 % 16), hexDig (n / 256 % 16), hexDig (n / 16 % 16), hexDig (n % 16)]

/-- Escape of one character of a JSON string, following Python's
`json.dumps` with `ensure_ascii=True`: the two-character escapes for
quote, backslash and the C0 controls that have one, `\u00xx` for other
control characters, printable ASCII verbatim, `\uxxxx` for other BMP
characters and a surrogate pair of escapes beyond the BMP. -/
def escChar (c : Nat) : List Nat :=
  if c = 34 then [92, 34]
  else if c = 92 then [92, 92]
  else if c = 8 then [92, 98]
  else if c = 9 then [92, 116]
  else if c = 10 then [92, 110]
  else if c = 12 then [92, 102]
  else if c = 13 then [92, 114]
  else if c < 32 then 92 :: 117 :: hex4 c
  else if c ≤ 126 then [c]
  else if c < 65536 then 92 :: 117 :: hex4 c
  else
    (92 :: 117 :: hex4 (55296 + (c - 65536) / 1024)) ++
      (92 :: 117 :: hex4 (56320 + (c - 65536) % 1024))

/-- Body of an encoded JSON string: the escaped characters followed by
the closing quote. -/
def escStringAux : List Nat → List Nat
  | [] => [34]
  | c :: cs => escChar c ++ escStringAux cs

/-- Encoded JSON string: opening quote, escaped characters, closing quote. -/
def escString (s : List Nat) : List Nat :=
  34 :: escStringAux s

/-- Decimal digit characters of a natural number, most significant first,
prepended to `acc` (the accumulator form of Python's integer repr). -/
def natReprAux (n : Nat) (acc : List Nat) : List Nat :=
  if h : n < 10 then (48 + n) :: acc
  else natReprAux (n / 10) ((48 + n % 10) :: acc)
  termination_by n
  decreasing_by exact Nat.div_lt_self (by omega) (by omega)

/-- Decimal digit characters of a natural number. -/
def natRepr (n : Nat) : List Nat :=
  natReprAux n []

/-- Decimal representation of a Python integer, as emitted by `json.dumps`. -/
def intRepr (i : Int) : List Nat :=
  if i < 0 then 45 :: natRepr i.natAbs else natRepr i.toNat

mutual

/-- Characters of `json.dumps(v)` with default options (in particular the
default separators ", " and ": " and `ensure_ascii=True`). -/
def dumpVal : Json → List Nat
  | .null => [110, 117, 108, 108]
  | .bool true => [116, 114, 117, 101]
  | .bool false => [102, 97, 108, 115, 101]
  | .int n => intRepr n
  | .str s => escString s
  | .arr [] => [91, 93]
  | .arr (x :: xs) => 91 :: (dumpVal x ++ dumpItems xs)
  | .obj [] => [123, 125]
  | .obj (m :: ms) => 123 :: (dumpMember m ++ dumpMembers ms)

/-- Encoding of the remaining array items: ", item" for each, then "]". -/
def dumpItems : List Json → List Nat
  | [] => [93]
  | x :: xs => 44 :: 32 :: (dumpVal x ++ dumpItems xs)

/-- Encoding of one object member: encoded key, ": ", encoded value. -/
def dumpMember : List Nat × Json → List Nat
  | (k, v) => escString k ++ (58 :: 32 :: dumpVal v)

/-- Encoding of the remaining object members: ", member" for each, then "}". -/
def dumpMembers : List (List Nat × Json) → List Nat
  | [] => [125]
  | m :: ms => 44 :: 32 :: (dumpMember m ++ dumpMembers ms)

end

/-- UTF-8 encoding of one Unicode scalar value (Python `str.encode`). -/
def utf8EncodeChar (c : Nat) : List Nat :=
  if c < 128 then [c]
  else if c < 2048 then [192 + c / 64, 128 + c % 64]
  else if c < 65536 then [224 + c / 4096, 128 + c / 64 % 64, 128 + c % 64]
  else [240 + c / 262144, 128 + c / 4096 % 64, 128 + c / 64 % 64, 128 + c % 64]

/-- UTF-8 encoding of a sequence of code points. -/
def utf8Encode : List Nat → List Nat
  | [] => []
  | c :: cs => utf8EncodeChar c ++ utf8Encode cs

/-- Strict UTF-8 decoding of a byte sequence (Python `bytes.decode`),
rejecting truncated sequences, overlong forms, surrogates and values
beyond U+10FFFF.  Returns the decoded code points or `none` on a
`UnicodeDecodeError`.  The fuel argument is a proof artifact: every
recursive call consumes at least one byte, so fuel `input.length + 1`
(as supplied by all callers) never runs out and the function computes
the unfueled decoder. -/
def utf8Decode : Nat → List Nat → Option (List Nat)
  | 0, _ => none
  | Nat.succ f, input =>
    match input with
    | [] => some []
    | b :: bs =>
      if b < 128 then
        (utf8Decode f bs).map (fun cs => b :: cs)
      else if b < 194 then none
      else if b < 224 then
        match bs with
        | b2 :: bs2 =>
          if 128 ≤ b2 ∧ b2 < 192 then
            (utf8Decode f bs2).map (fun cs => ((b - 192) * 64 + (b2 - 128)) :: cs)
          else none
        | [] => none
      else if b < 240 then
        match bs with
        | b2 :: b3 :: bs3 =>
          if 128 ≤ b2 ∧ b2 < 192 ∧ 128 ≤ b3 ∧ b3 < 192 then
            let c := (b - 224) * 4096 + (b2 - 128) * 64 + (b3 - 128)
            if c < 2048 ∨ (55296 ≤ c ∧ c ≤ 57343) then none
            else (utf8Decode f bs3).map (fun cs => c :: cs)
          else none
        | _ => none
      else if b < 245 then
        match bs with
        | b2 :: b3 :: b4 :: bs4 =>
          if 128 ≤ b2 ∧ b2 < 192 ∧ 128 ≤ b3 ∧ b3 < 192 ∧ 128 ≤ b4 ∧ b4 < 192 then
            let c := (b - 240) * 262144 + (b2 - 128) * 4096 + (b3 - 128) * 64 + (b4 - 128)
            if c < 65536 ∨ 1114111 < c then none
            else (utf8Decode f bs4).map (fun cs => c :: cs)
          else none
        | _ => none
      else none

/-- JSON insignificant whitespace characters (space, tab, newline, return). -/
def isWsB (c : Nat) : Bool :=
  c = 32 || c = 9 || c = 10 || c = 13

/-- Drop leading JSON whitespace. -/
def skipWs : List Nat → List Nat
  | [] => []
  | c :: cs => if isWsB c then skipWs cs else c :: cs

/-- ASCII decimal digit test. -/
def isDigitB (c : Nat) : Bool :=
  48 ≤ c && c ≤ 57

/-- Numeric value of a big-endian list of decimal digit characters. -/
def digitsVal (ds : List Nat) : Nat :=
  ds.foldl (fun a c => a * 10 + (c - 48)) 0

/-- Value of one hexadecimal digit character, either case. -/
def hexVal (c : Nat) : Option Nat :=
  if 48 ≤ c ∧ c ≤ 57 then some (c - 48)
  else if 97 ≤ c ∧ c ≤ 102 then some (c - 87)
  else if 65 ≤ c ∧ c ≤ 70 then some (c - 55)
  else none

/-- Value of a four-character hexadecimal escape payload. -/
def hex4Val (a b c d : Nat) : Option Nat :=
  match hexVal a, hexVal b, hexVal c, hexVal d with
  | some x, some y, some z, some w => some (((x * 16 + y) * 16 + z) * 16 + w)
  | _, _, _, _ => none

/-- Prepend a decoded character to the result of parsing the remainder
of a string body. -/
def consChar (c : Nat) (r : Option (List Nat × List Nat)) :
    Option (List Nat × List Nat) :=
  r.map (fun p => (c :: p.1, p.2))

/-- Parse the body of a JSON string after the opening quote, following
Python's `json` scanner: standard two-character escapes, `\uXXXX` escapes
with surrogate-pair combination (a high surrogate followed by a `\u`
low-surrogate escape combines; otherwise the lone value is kept), raw
control characters rejected (`strict=True`).  The fuel argument is a
proof artifact: every recursive call consumes at least one input
character, so fuel `input.length + 1` (as supplied by all callers) never
runs out and the function computes the unfueled scanner. -/
def parseStringBody : Nat → List Nat → Option (List Nat × List Nat)
  | 0, _ => none
  | Nat.succ f, input =>
    match input with
    | [] => none
    | c :: rest =>
      if c = 34 then some ([], rest)
      else if c = 92 then
        match rest with
        | [] => none
        | e :: rest1 =>
          if e = 117 then
            match rest1 with
            | h1 :: h2 :: h3 :: h4 :: rest2 =>
              match hex4Val h1 h2 h3 h4 with
              | none => none
              | some n =>
                if 55296 ≤ n ∧ n ≤ 56319 then
                  let lone := consChar n (parseStringBody f rest2)
                  match rest2 with
                  | a :: b :: g1 :: g2 :: g3 :: g4 :: rest3 =>
                    if a = 92 ∧ b = 117 then
                      match hex4Val g1 g2 g3 g4 with
                      | some m =>
                        if 56320 ≤ m ∧ m ≤ 57343 then
                          consChar (65536 + (n - 55296) * 1024 + (m - 56320))
                            (parseStringBody f rest3)
                        else lone
                      | none => lone
                    else lone
                  | _ => lone
                else consChar n (parseStringBody f rest2)
            | _ => none
          else if e = 34 then consChar 34 (parseStringBody f rest1)
          else if e = 92 then consChar 92 (parseStringBody f rest1)
          else if e = 47 then consChar 47 (parseStringBody f rest1)
          else if e = 98 then consChar 8 (parseStringBody f rest1)
          else if e = 102 then consChar 12 (parseStringBody f rest1)
          else if e = 110 then consChar 10 (parseStringBody f rest1)
          else if e = 114 then consChar 13 (parseStringBody f rest1)
          else if e = 116 then consChar 9 (parseStringBody f rest1)
          else none
      else if c < 32 then none
      else consChar c (parseStringBody f rest)

/-- Parse a run of decimal digits with the JSON leading-zero rule:
a leading `0` is the whole integer part. -/
def parseDigitsRun (l : List Nat) : Option (Nat × List Nat) :=
  match l with
  | [] => none
  | c :: rest =>
    if isDigitB c then
      if c = 48 then some (0, rest)
      else some (digitsVal (l.takeWhile isDigitB), l.dropWhile isDigitB)
    else none

/-- Whether a fraction or exponent part follows (float payloads are
outside this model, see the module comment). -/
def floatFollows (l : List Nat) : Bool :=
  match l with
  | [] => false
  | c :: _ => c = 46 || c = 101 || c = 69

/-- Parse a JSON number token restricted to integers. -/
def parseNumberTok (l : List Nat) : Option (Int × List Nat) :=
  match l with
  | [] => none
  | c :: rest =>
    if c = 45 then
      match parseDigitsRun rest with
      | some (n, r) => if floatFollows r then none else some (-(n : Int), r)
      | none => none
    else
      match parseDigitsRun l with
      | some (n, r) => if floatFollows r then none else some ((n : Int), r)
      | none => none

/-- Match a literal character sequence, returning the remainder. -/
def dropLit : List Nat → List Nat → Option (List Nat)
  | [], l => some l
  | t :: ts, c :: cs => if c = t then dropLit ts cs else none
  | _ :: _, [] => none

mutual

/-- Fueled recursive-descent parser for one JSON value, following
Python's `json.loads` grammar (whitespace-insensitive, `null`/`true`/
`false` literals, strings, integers, arrays, objects).  Every recursive
call spends one unit of fuel; fuel at least `jsizeV` of the value
suffices. -/
def parseValue : Nat → List Nat → Option (Json × List Nat)
  | 0, _ => none
  | Nat.succ f, input =>
    match skipWs input with
    | [] => none
    | c :: rest =>
      if c = 110 then (dropLit [117, 108, 108] rest).map (fun r => (Json.null, r))
      else if c = 116 then (dropLit [114, 117, 101] rest).map (fun r => (Json.bool true, r))
      else if c = 102 then (dropLit [97, 108, 115, 101] rest).map (fun r => (Json.bool false, r))
      else if c = 34 then
        (parseStringBody (rest.length + 1) rest).map (fun p => (Json.str p.1, p.2))
      else if c = 91 then
        match skipWs rest with
        | [] => none
        | c1 :: r2 =>
          if c1 = 93 then some (Json.arr [], r2)
          else (parseItems f (c1 :: r2)).map (fun p => (Json.arr p.1, p.2))
      else if c = 123 then
        match skipWs rest with
        | [] => none
        | c1 :: r2 =>
          if c1 = 125 then some (Json.obj [], r2)
          else (parseMembers f (c1 :: r2)).map (fun p => (Json.obj p.1, p.2))
      else if c = 45 ∨ isDigitB c then
        (parseNumberTok (c :: rest)).map (fun p => (Json.int p.1, p.2))
      else none

/-- Parse the non-empty item list of an array up to and including the
closing bracket. -/
def parseItems : Nat → List Nat → Option (List Json × List Nat)
  | 0, _ => none
  | Nat.succ f, input =>
    match parseValue f input with
    | none => none
    | some (v, r) =>
      match skipWs r with
      | [] => none
      | c :: r2 =>
        if c = 44 then (parseItems f r2).map (fun p => (v :: p.1, p.2))
        else if c = 93 then some ([v], r2)
        else none

/-- Parse the non-empty member list of an object up to and including the
closing brace. -/
def parseMembers : Nat → List Nat → Option (List (List Nat × Json) × List Nat)
  | 0, _ => none
  | Nat.succ f, input =>
    match skipWs input with
    | [] => none
    | c :: r =>
      if c = 34 then
        match parseStringBody (r.length + 1) r with
        | none => none
        | some (k, r1) =>
          match skipWs r1 with
          | [] => none
          | c2 :: r2 =>
            if c2 = 58 then
              match parseValue f r2 with
              | none => none
              | some (v, r3) =>
                match skipWs r3 with
                | [] => none
                | c3 :: r4 =>
                  if c3 = 44 then (parseMembers f r4).map (fun p => ((k, v) :: p.1, p.2))
                  else if c3 = 125 then some ([(k, v)], r4)
                  else none
            else none
      else none

end

mutual

/-- Fuel measure for `parseValue`. -/
def jsizeV : Json → Nat
  | .null => 1
  | .bool _ => 1
  | .int _ => 1
  | .str _ => 1
  | .arr xs => jsizeL xs + 1
  | .obj ms => jsizeM ms + 1

/-- Fuel measure for `parseItems`. -/
def jsizeL : List Json → Nat
  | [] => 1
  | x :: xs => max (jsizeV x) (jsizeL xs) + 1

/-- Fuel measure for `parseMembers`. -/
def jsizeM : List (List Nat × Json) → Nat
  | [] => 1
  | m :: ms => max (jsizeV m.2) (jsizeM ms) + 1

end

/-- `json.loads` over code points: parse one document and require only
whitespace to follow ("Extra data" otherwise). -/
def jsonLoads (cs : List Nat) : Option Json :=
  match parseValue (cs.length + 1) cs with
  | some (v, rest) => if skipWs rest = [] then some v else none
  | none => none

/-- Python `str.strip` restricted to the ASCII whitespace characters
(all that can occur around an encoded JSON document). -/
def pyStrip (l : List Nat) : List Nat :=
  (((l.dropWhile isWsB).reverse).dropWhile isWsB).reverse

/-- The continuation does not begin with a character that would extend a
number token (a digit, `.`, `e` or `E`); used to delimit parses of an
encoded value against an arbitrary continuation. -/
def numBoundaryB : List Nat → Bool
  | [] => true
  | c :: _ => !(isDigitB c || c = 46 || c = 101 || c = 69)

/-! ## Wire codec of each binding -/

/-- `SocketTeleopInterface.send_command` encoding:
`json.dumps(command).encode('utf-8')`. -/
def socketEncode (m : Json) : List Nat :=
  utf8Encode (dumpVal m)

/-- `SocketTeleopInterface.receive_data` decoding:
`json.loads(data.decode('utf-8'))`, with every decode failure caught. -/
def socketDecode (bs : List Nat) : Option Json :=
  (utf8Decode (bs.length + 1) bs).bind jsonLoads

/-- `SocketTeleopServer.send_command` encoding (same expression as the
client's, duplicated in the source). -/
def serverEncode (m : Json) : List Nat :=
  utf8Encode (dumpVal m)

/-- `SocketTeleopServer.receive_data` decoding. -/
def serverDecode (bs : List Nat) : Option Json :=
  (utf8Decode (bs.length + 1) bs).bind jsonLoads

/-- `SerialTeleopInterface.send_command` encoding:
`(json.dumps(command) + '\n').encode('utf-8')`. -/
def serialEncode (m : Json) : List Nat :=
  utf8Encode (dumpVal m ++ [10])

/-- `SerialTeleopInterface.receive_data` decoding of one received line:
`json.loads(line.decode('utf-8').strip())`, failures caught. -/
def serialDecode (bs : List Nat) : Option Json :=
  (utf8Decode (bs.length + 1) bs).bind (fun cs => jsonLoads (pyStrip cs))

/-! ## Transport state machines

Each Python method becomes a function from the instance state (the
Python attributes) and an oracle describing the behaviour of the OS
resource (whether a call raises, what bytes arrive) to the returned
value, the new state, and a trace of transport actions performed.  A
raised-and-caught OS exception is an oracle outcome, never a Lean-level
failure, mirroring the fail-safe boundary of the code. -/

/-- Python errors raised past a public boundary. -/
inductive PyErr where
  | valueError
  | nameError

/-- A peer network address (host, port). -/
abbrev Addr := String × Nat

/-- Transport-level actions performed on the underlying OS resource. -/
inductive Action where
  | sendall (data : List Nat)
  | sendto (data : List Nat) (dest : Addr)
  | settimeout (t : ℚ)
  | recv
  | recvfrom
  | serialWrite (data : List Nat)
  | serialFlush
  | serialReadline
  | serialRead (size : Nat)
  | resetInput
  | resetOutput

/-- Python `str.upper` (ASCII fragment, as used on protocol names):
the character-wise uppercase map. -/
def pyUpper (s : String) : String :=
  String.mk (s.data.map Char.toUpper)

/-! ### SocketTeleopInterface (client) -/

/-- Attributes of a `SocketTeleopInterface` instance.  `sock` is the
presence of `self.socket` (not `None`). -/
structure SocketClientState where
  host : String
  port : Nat
  protocol : String
  buffer_size : Nat
  is_connected : Bool
  sock : Bool

/-- `TeleopInterface.check_connection` for the socket client. -/
def SocketClientState.check_connection (s : SocketClientState) : Bool :=
  s.is_connected

/-- `SocketTeleopInterface.__init__`: stores the parameters, upper-cases
the protocol and raises `ValueError` unless it is TCP or UDP; performs
no I/O. -/
def socketInit (host : String) (port : Nat) (protocol : String)
    (buffer_size : Nat) : Except PyErr SocketClientState :=
  let p := pyUpper protocol
  if p = "TCP" ∨ p = "UDP" then
    .ok { host := host, port := port, protocol := p, buffer_size := buffer_size,
          is_connected := false, sock := false }
  else .error .valueError

/-- Outcome of resource acquisition in `connect`. -/
inductive ConnectOutcome where
  | ok
  /-- creating the socket raised; `self.socket` is unchanged -/
  | createFail
  /-- the TCP `connect` call raised after the socket was assigned -/
  | connectFail

/-- `SocketTeleopInterface.connect`. -/
def socketConnect (s : SocketClientState) (o : ConnectOutcome) :
    Bool × SocketClientState :=
  if s.protocol = "TCP" then
    match o with
    | .ok => (true, { s with sock := true, is_connected := true })
    | .createFail => (false, { s with is_connected := false })
    | .connectFail => (false, { s with sock := true, is_connected := false })
  else
    match o with
    | .ok => (true, { s with sock := true, is_connected := true })
    | .createFail => (false, { s with is_connected := false })
    | .connectFail => (false, { s with is_connected := false })

/-- `SocketTeleopInterface.disconnect`: closes the socket if present
(`closeOk` is whether `close` returns normally), then clears the flag;
a raised `close` is caught and reported as `false` with the flag and
socket attribute untouched. -/
def socketDisconnect (s : SocketClientState) (closeOk : Bool) :
    Bool × SocketClientState :=
  if s.sock then
    if closeOk then (true, { s with sock := false, is_connected := false })
    else (false, s)
  else (true, { s with is_connected := false })

/-- `SocketTeleopInterface.send_command`: guard on the flag and socket,
then one `sendall` (TCP) or `sendto` (UDP) of the encoded command;
`writeOk` is whether the write returns normally. -/
def socketSendCommand (s : SocketClientState) (cmd : Json) (writeOk : Bool) :
    Bool × List Action :=
  if s.is_connected = false ∨ s.sock = false then (false, [])
  else
    let data := socketEncode cmd
    if s.protocol = "TCP" then (writeOk, [.sendall data])
    else (writeOk, [.sendto data (s.host, s.port)])

/-- What the transport delivered to a receive call. -/
inductive RecvOutcome where
  /-- the read raised `socket.timeout` -/
  | timeout
  /-- the read raised some other exception -/
  | raised
  /-- the read returned these bytes, sent from this address -/
  | data (bs : List Nat) (src : Addr)

/-- `SocketTeleopInterface.receive_data`: guard, set the per-call
timeout, one bounded read, decode; timeout, empty read and decode
failure all yield `none`. -/
def socketReceiveData (s : SocketClientState) (t : ℚ) (o : RecvOutcome) :
    Option Json × List Action :=
  if s.is_connected = false ∨ s.sock = false then (none, [])
  else
    let acts := [Action.settimeout t, if s.protocol = "TCP" then Action.recv else Action.recvfrom]
    match o with
    | .timeout => (none, acts)
    | .raised => (none, acts)
    | .data bs _ => (if bs = [] then none else socketDecode bs, acts)

/-! ### SocketTeleopServer -/

/-- Attributes of a `SocketTeleopServer` instance. -/
structure SocketServerState where
  host : String
  port : Nat
  protocol : String
  buffer_size : Nat
  is_connected : Bool
  server_sock : Bool
  client_sock : Bool
  client_address : Option Addr

/-- `TeleopInterface.check_connection` for the socket server. -/
def SocketServerState.check_connection (s : SocketServerState) : Bool :=
  s.is_connected

/-- `SocketTeleopServer.__init__`. -/
def serverInit (host : String) (port : Nat) (protocol : String)
    (buffer_size : Nat) : Except PyErr SocketServerState :=
  let p := pyUpper protocol
  if p = "TCP" ∨ p = "UDP" then
    .ok { host := host, port := port, protocol := p, buffer_size := buffer_size,
          is_connected := false, server_sock := false, client_sock := false,
          client_address := none }
  else .error .valueError

/-- Outcome of server-side resource acquisition in `connect`. -/
inductive ServerConnectOutcome where
  /-- TCP: bind/listen succeeded and `accept` returned this client -/
  | tcpAccept (addr : Addr)
  /-- UDP: bind succeeded -/
  | udpBound
  /-- creating the server socket raised; attributes unchanged -/
  | failBeforeCreate
  /-- a later call (bind/listen/accept) raised after the socket was assigned -/
  | failAfterCreate

/-- `SocketTeleopServer.connect`.  An outcome constructor that does not
apply to the configured protocol is treated as an acquisition failure. -/
def serverConnect (s : SocketServerState) (o : ServerConnectOutcome) :
    Bool × SocketServerState :=
  if s.protocol = "TCP" then
    match o with
    | .tcpAccept a =>
        (true, { s with server_sock := true, client_sock := true, client_address := some a, is_connected := true })
    | .udpBound => (false, { s with server_sock := true, is_connected := false })
    | .failBeforeCreate => (false, { s with is_connected := false })
    | .failAfterCreate => (false, { s with server_sock := true, is_connected := false })
  else
    match o with
    | .udpBound => (true, { s with server_sock := true, is_connected := true })
    | .tcpAccept _ => (false, { s with is_connected := false })
    | .failBeforeCreate => (false, { s with is_connected := false })
    | .failAfterCreate => (false, { s with is_connected := false })

/-- `SocketTeleopServer.disconnect`: close the client socket, then the
server socket, then clear the flag; a raised `close` is caught and
reported as `false`, leaving the remaining attributes untouched. -/
def serverDisconnect (s : SocketServerState)
    (closeClientOk closeServerOk : Bool) : Bool × SocketServerState :=
  if s.client_sock then
    if closeClientOk then
      let s1 := { s with client_sock := false }
      if s1.server_sock then
        if closeServerOk then
          (true, { s1 with server_sock := false, is_connected := false })
        else (false, s1)
      else (true, { s1 with is_connected := false })
    else (false, s)
  else
    if s.server_sock then
      if closeServerOk then
        (true, { s with server_sock := false, is_connected := false })
      else (false, s)
    else (true, { s with is_connected := false })

/-- `SocketTeleopServer.send_command`: guard on the flag; TCP requires
an accepted client socket, UDP a previously recorded peer address. -/
def serverSendCommand (s : SocketServerState) (cmd : Json) (writeOk : Bool) :
    Bool × List Action :=
  if s.is_connected = false then (false, [])
  else
    let data := serverEncode cmd
    if s.protocol = "TCP" then
      if s.client_sock = false then (false, [])
      else (writeOk, [.sendall data])
    else
      match s.client_address with
      | none => (false, [])
      | some a => (writeOk, [.sendto data a])

/-- `SocketTeleopServer.receive_data`: guard; TCP reads from the
accepted client; UDP reads one datagram and records its source address
(the assignment happens whenever `recvfrom` returns, before any decode). -/
def serverReceiveData (s : SocketServerState) (t : ℚ) (o : RecvOutcome) :
    Option Json × SocketServerState × List Action :=
  if s.is_connected = false then (none, s, [])
  else if s.protocol = "TCP" then
    if s.client_sock = false then (none, s, [])
    else
      match o with
      | .timeout => (none, s, [.settimeout t, .recv])
      | .raised => (none, s, [.settimeout t, .recv])
      | .data bs _ =>
          ((if bs = [] then none else serverDecode bs), s, [.settimeout t, .recv])
  else
    match o with
    | .timeout => (none, s, [.settimeout t, .recvfrom])
    | .raised => (none, s, [.settimeout t, .recvfrom])
    | .data bs src =>
        ((if bs = [] then none else serverDecode bs),
         { s with client_address := some src }, [.settimeout t, .recvfrom])

/-! ### SerialTeleopInterface -/

/-- The observable state of a pyserial handle: whether it is open and
its configured read timeout. -/
structure SerialHandle where
  is_open : Bool
  timeout : ℚ

/-- Attributes of a `SerialTeleopInterface` instance. -/
structure SerialState where
  port : String
  baudrate : Nat
  timeout : ℚ
  bytesize : Nat
  parity : String
  stopbits : ℚ
  is_connected : Bool
  serial_port : Option SerialHandle

/-- `TeleopInterface.check_connection` for the serial binding. -/
def SerialState.check_connection (s : SerialState) : Bool :=
  s.is_connected

/-- `SerialTeleopInterface.__init__`: stores the parameters verbatim;
the body contains no validation and no raise, so construction always
succeeds. -/
def serialInit (port : String) (baudrate : Nat) (timeout : ℚ)
    (bytesize : Nat) (parity : String) (stopbits : ℚ) :
    Except PyErr SerialState :=
  .ok { port := port, baudrate := baudrate, timeout := timeout,
        bytesize := bytesize, parity := parity, stopbits := stopbits,
        is_connected := false, serial_port := none }

/-- Outcome of opening the serial device in `connect`. -/
inductive SerialConnectOutcome where
  /-- `serial.Serial(...)` returned an open handle and the buffer
  resets succeeded -/
  | opened
  /-- `serial.Serial(...)` raised (absent device, permission, invalid
  parameter); the handle attribute is unchanged -/
  | openFail
  /-- the handle opened but a buffer reset raised -/
  | resetFail

/-- `SerialTeleopInterface.connect`: opens the handle with the
configured parameters (its read timeout becomes `self.timeout`), resets
both buffers, and sets the flag. -/
def serialConnect (s : SerialState) (o : SerialConnectOutcome) :
    Bool × SerialState × List Action :=
  match o with
  | .opened =>
      (true,
       { s with serial_port := some { is_open := true, timeout := s.timeout }, is_connected := true },
       [.resetInput, .resetOutput])
  | .openFail => (false, { s with is_connected := false }, [])
  | .resetFail =>
      (false,
       { s with serial_port := some { is_open := true, timeout := s.timeout }, is_connected := false },
       [.resetInput])

/-- `SerialTeleopInterface.disconnect`: closes the handle if present and
open, then clears the flag; a raised `close` is caught and reported as
`false` with the attributes untouched. -/
def serialDisconnect (s : SerialState) (closeOk : Bool) : Bool × SerialState :=
  match s.serial_port with
  | some h =>
    if h.is_open then
      if closeOk then
        (true, { s with serial_port := some { h with is_open := false }, is_connected := false })
      else (false, s)
    else (true, { s with is_connected := false })
  | none => (true, { s with is_connected := false })

/-- The guard shared by the serial send/receive operations:
`self.is_connected and self.serial_port and self.serial_port.is_open`. -/
def serialGuard (s : SerialState) : Bool :=
  s.is_connected &&
    match s.serial_port with
    | some h => h.is_open
    | none => false

/-- `SerialTeleopInterface.send_command`: guard, write the
newline-terminated encoding, flush. -/
def serialSendCommand (s : SerialState) (cmd : Json)
    (writeOk flushOk : Bool) : Bool × List Action :=
  if serialGuard s = false then (false, [])
  else
    let data := serialEncode cmd
    if writeOk then
      if flushOk then (true, [.serialWrite data, .serialFlush])
      else (false, [.serialWrite data, .serialFlush])
    else (false, [.serialWrite data])

/-- What the serial line delivered to a read call. -/
inductive SerialReadOutcome where
  /-- the read returned these bytes (empty on a quiet timeout) -/
  | bytes (bs : List Nat)
  /-- the read raised -/
  | raised

/-- `SerialTeleopInterface.receive_data`: guard, save the configured
timeout, install the call-supplied timeout, `readline`, restore the
saved timeout, then decode.  The restore statement is only reached when
`readline` returns: a raised read leaves the override in place (there is
no `finally` in the source). -/
def serialReceiveData (s : SerialState) (t : ℚ) (o : SerialReadOutcome) :
    Option Json × SerialState × List Action :=
  if serialGuard s = false then (none, s, [])
  else
    match s.serial_port with
    | none => (none, s, [])
    | some h =>
      match o with
      | .raised =>
          (none, { s with serial_port := some { h with timeout := t } },
           [.serialReadline])
      | .bytes bs =>
          (if bs = [] then none else serialDecode bs, s, [.serialReadline])

/-- `SerialTeleopInterface.send_raw_bytes`: guard, write, flush. -/
def serialSendRawBytes (s : SerialState) (data : List Nat)
    (writeOk flushOk : Bool) : Bool × List Action :=
  if serialGuard s = false then (false, [])
  else if writeOk then
    if flushOk then (true, [.serialWrite data, .serialFlush])
    else (false, [.serialWrite data, .serialFlush])
  else (false, [.serialWrite data])

/-- `SerialTeleopInterface.receive_raw_bytes`: guard, timeout override,
`read(size)` (which per the pyserial contract may deliver fewer than
`size` bytes), restore, and return the bytes when non-empty.  As in
`receive_data`, a raised read skips the restore. -/
def serialReceiveRawBytes (s : SerialState) (size : Nat) (t : ℚ)
    (o : SerialReadOutcome) : Option (List Nat) × SerialState × List Action :=
  if serialGuard s = false then (none, s, [])
  else
    match s.serial_port with
    | none => (none, s, [])
    | some h =>
      match o with
      | .raised =>
          (none, { s with serial_port := some { h with timeout := t } },
           [.serialRead size])
      | .bytes bs =>
          (if bs = [] then none else some bs, s, [.serialRead size])

/-- `SerialTeleopInterface.clear_buffers`: resets both buffers when the
port is open, otherwise does nothing. -/
def serialClearBuffers (s : SerialState) : List Action :=
  match s.serial_port with
  | some h => if h.is_open then [.resetInput, .resetOutput] else []
  | none => []

/-- `SerialTeleopInterface.list_available_ports`: enumerate the visible
serial devices; on an enumeration failure the handler evaluates
`logging.error(...)`, but the name `logging` is not imported in
`serial_teleop.py`, so a `NameError` escapes to the caller instead of
the intended `return []`. -/
def listAvailablePorts (enum : Except PyErr (List String)) :
    Except PyErr (List String) :=
  match enum with
  | .ok ps => .ok ps
  | .error _ => .error .nameError

/-! ### Concrete example states (used by witnesses and counterexamples) -/

/-- A connected TCP client instance. -/
def clientConnEx : SocketClientState :=
  { host := "127.0.0.1", port := 8888, protocol := "TCP", buffer_size := 4096,
    is_connected := true, sock := true }

/-- A disconnected UDP client instance. -/
def clientDiscEx : SocketClientState :=
  { host := "127.0.0.1", port := 8888, protocol := "UDP", buffer_size := 4096,
    is_connected := false, sock := false }

/-- A running UDP server instance with a recorded peer. -/
def serverUdpEx : SocketServerState :=
  { host := "0.0.0.0", port := 8888, protocol := "UDP", buffer_size := 4096,
    is_connected := true, server_sock := true, client_sock := false,
    client_address := some ("10.0.0.5", 9999) }

/-- A running TCP server instance with an accepted client. -/
def serverTcpEx : SocketServerState :=
  { host := "0.0.0.0", port := 8888, protocol := "TCP", buffer_size := 4096,
    is_connected := true, server_sock := true, client_sock := true,
    client_address := some ("127.0.0.1", 5555) }

/-- A stopped UDP server instance with no recorded peer. -/
def serverDiscEx : SocketServerState :=
  { host := "0.0.0.0", port := 8888, protocol := "UDP", buffer_size := 4096,
    is_connected := false, server_sock := false, client_sock := false,
    client_address := none }

/-- An open serial instance with configured read timeout 1. -/
def serialOpenEx : SerialState :=
  { port := "/dev/ttyUSB0", baudrate := 115200, timeout := 1, bytesize := 8,
    parity := "N", stopbits := 1, is_connected := true,
    serial_port := some { is_open := true, timeout := 1 } }

/-- A never-connected serial instance. -/
def serialDiscEx : SerialState :=
  { port := "/dev/ttyUSB0", baudrate := 115200, timeout := 1, bytesize := 8,
    parity := "N", stopbits := 1, is_connected := false, serial_port := none }

/-- A small example command mapping. -/
def cmdEx : Json :=
  Json.obj [([116, 121, 112, 101], Json.str [109, 111, 118, 101]),
            ([115, 112, 101, 101, 100], Json.int 100)]

/-! ## Theorems -/

/-- C2: while the connected flag is false, every binding's
`send_command` returns false and `receive_data` returns `none` with an
empty transport trace (no write or read is attempted and, for the
stateful receivers, the state is untouched); moreover no operation other
than a successful `connect` can turn the flag true: the disconnects and
receives never raise it, and a failed `connect` leaves it false. -/
theorem disconnected_guard_and_flag_via_connect_only :
    (∀ (s : SocketClientState) (cmd : Json) (w : Bool), s.is_connected = false →
       socketSendCommand s cmd w = (false, [])) ∧
    (∀ (s : SocketClientState) (t : ℚ) (o : RecvOutcome), s.is_connected = false →
       socketReceiveData s t o = (none, [])) ∧
    (∀ (s : SocketServerState) (cmd : Json) (w : Bool), s.is_connected = false →
       serverSendCommand s cmd w = (false, [])) ∧
    (∀ (s : SocketServerState) (t : ℚ) (o : RecvOutcome), s.is_connected = false →
       serverReceiveData s t o = (none, s, [])) ∧
    (∀ (s : SerialState) (cmd : Json) (w f : Bool), s.is_connected = false →
       serialSendCommand s cmd w f = (false, [])) ∧
    (∀ (s : SerialState) (t : ℚ) (o : SerialReadOutcome), s.is_connected = false →
       serialReceiveData s t o = (none, s, [])) ∧
    (∀ (s : SerialState) (d : List Nat) (w f : Bool), s.is_connected = false →
       serialSendRawBytes s d w f = (false, [])) ∧
    (∀ (s : SerialState) (n : Nat) (t : ℚ) (o : SerialReadOutcome), s.is_connected = false →
       serialReceiveRawBytes s n t o = (none, s, [])) ∧
    (∀ (s : SocketClientState) (c : Bool),
       (socketDisconnect s c).2.is_connected = true → s.is_connected = true) ∧
    (∀ (s : SocketServerState) (c1 c2 : Bool),
       (serverDisconnect s c1 c2).2.is_connected = true → s.is_connected = true) ∧
    (∀ (s : SerialState) (c : Bool),
       (serialDisconnect s c).2.is_connected = true → s.is_connected = true) ∧
    (∀ (s : SocketServerState) (t : ℚ) (o : RecvOutcome),
       (serverReceiveData s t o).2.1.is_connected = s.is_connected) ∧
    (∀ (s : SerialState) (t : ℚ) (o : SerialReadOutcome),
       (serialReceiveData s t o).2.1.is_connected = s.is_connected) ∧
    (∀ (s : SerialState) (n : Nat) (t : ℚ) (o : SerialReadOutcome),
       (serialReceiveRawBytes s n t o).2.1.is_connected = s.is_connected) ∧
    (∀ (s : SocketClientState) (o : ConnectOutcome),
       (socketConnect s o).1 = false → (socketConnect s o).2.is_connected = false) ∧
    (∀ (s : SocketServerState) (o : ServerConnectOutcome),
       (serverConnect s o).1 = false → (serverConnect s o).2.is_connected = false) ∧
    (∀ (s : SerialState) (o : SerialConnectOutcome),
       (serialConnect s o).1 = false → (serialConnect s o).2.1.is_connected = false) := by
  refine ⟨?_, ?_, ?_, ?_, ?_, ?_, ?_, ?_, ?_, ?_, ?_, ?_, ?_, ?_, ?_, ?_, ?_⟩
  · intro s cmd w h; simp [socketSendCommand, h]
  · intro s t o h; simp [socketReceiveData, h]
  · intro s cmd w h; simp [serverSendCommand, h]
  · intro s t o h; simp [serverReceiveData, h]
  · intro s cmd w f h; simp [serialSendCommand, serialGuard, h]
  · intro s t o h; simp [serialReceiveData, serialGuard, h]
  · intro s d w f h; simp [serialSendRawBytes, serialGuard, h]
  · intro s n t o h; simp [serialReceiveRawBytes, serialGuard, h]
  · intro s c h
    by_cases hs : s.sock <;> by_cases hc : c <;> simp_all [socketDisconnect]
  · intro s c1 c2 h
    by_cases h1 : s.client_sock <;> by_cases h2 : s.server_sock <;>
      by_cases h3 : c1 <;> by_cases h4 : c2 <;> simp_all [serverDisconnect]
  · intro s c h
    rcases hp : s.serial_port with _ | hh <;>
      simp_all [serialDisconnect] <;>
      by_cases ho : hh.is_open <;> by_cases hc : c <;> simp_all
  · intro s t o
    by_cases hc : s.is_connected <;> by_cases hp : s.protocol = "TCP" <;>
      by_cases hcs : s.client_sock <;> cases o <;>
      simp_all [serverReceiveData]
  · intro s t o
    by_cases hg : serialGuard s = false <;> cases o <;>
      rcases hp : s.serial_port with _ | hh <;>
      simp_all [serialReceiveData]
  · intro s n t o
    by_cases hg : serialGuard s = false <;> cases o <;>
      rcases hp : s.serial_port with _ | hh <;>
      simp_all [serialReceiveRawBytes]
  · intro s o
    by_cases hp : s.protocol = "TCP" <;> cases o <;> simp_all [socketConnect]
  · intro s o
    by_cases hp : s.protocol = "TCP" <;> cases o <;> simp_all [serverConnect]
  · intro s o
    cases o <;> simp_all [serialConnect]

/-- C2 witness: the guard and flag facts instantiated on concrete
disconnected instances, on concrete failing disconnects whose flag was
true before, and on concrete failing connects. -/
theorem disconnected_guard_and_flag_via_connect_only_witness :
    socketSendCommand clientDiscEx cmdEx true = (false, []) ∧
    socketReceiveData clientDiscEx 1 (.data [48] ("1.2.3.4", 1)) = (none, []) ∧
    serverSendCommand serverDiscEx cmdEx true = (false, []) ∧
    serverReceiveData serverDiscEx 1 .timeout = (none, serverDiscEx, []) ∧
    serialSendCommand serialDiscEx cmdEx true true = (false, []) ∧
    serialReceiveData serialDiscEx 1 (.bytes [48]) = (none, serialDiscEx, []) ∧
    serialSendRawBytes serialDiscEx [1, 2] true true = (false, []) ∧
    serialReceiveRawBytes serialDiscEx 2 1 (.bytes [7]) = (none, serialDiscEx, []) ∧
    clientConnEx.is_connected = true ∧
    serverUdpEx.is_connected = true ∧
    serialOpenEx.is_connected = true ∧
    (serverReceiveData serverUdpEx 1 .timeout).2.1.is_connected = serverUdpEx.is_connected ∧
    (serialReceiveData serialOpenEx 1 .raised).2.1.is_connected = serialOpenEx.is_connected ∧
    (serialReceiveRawBytes serialOpenEx 3 1 .raised).2.1.is_connected = serialOpenEx.is_connected ∧
    (socketConnect clientDiscEx .createFail).2.is_connected = false ∧
    (serverConnect serverDiscEx .failBeforeCreate).2.is_connected = false ∧
    (serialConnect serialDiscEx .openFail).2.1.is_connected = false := by
  obtain ⟨h1, h2, h3, h4, h5, h6, h7, h8, h9, h10, h11, h12, h13, h14, h15, h16, h17⟩ :=
    disconnected_guard_and_flag_via_connect_only
  exact ⟨h1 clientDiscEx cmdEx true rfl, h2 clientDiscEx 1 _ rfl,
    h3 serverDiscEx cmdEx true rfl, h4 serverDiscEx 1 .timeout rfl,
    h5 serialDiscEx cmdEx true true rfl, h6 serialDiscEx 1 _ rfl,
    h7 serialDiscEx [1, 2] true true rfl, h8 serialDiscEx 2 1 _ rfl,
    h9 clientConnEx false rfl, h10 serverUdpEx true false rfl,
    h11 serialOpenEx false rfl,
    h12 serverUdpEx 1 .timeout, h13 serialOpenEx 1 .raised,
    h14 serialOpenEx 3 1 .raised,
    h15 clientDiscEx .createFail rfl, h16 serverDiscEx .failBeforeCreate rfl,
    h17 serialDiscEx .openFail rfl⟩

/-- C3 counterexample: `disconnect` does not always clear the connected
flag.  On a connected TCP client whose `socket.close()` raises, the
except-branch returns `false` before the `self.is_connected = False`
assignment is reached, so the flag is still true afterwards. -/
theorem disconnect_flag_counterexample :
    (socketDisconnect clientConnEx false).2.is_connected = true := rfl

/-- C3 amended: `disconnect` clears the connected flag on every call in
which the resource release does not raise — equivalently, whenever it
returns true — and `check_connection` (the flag) is false on a freshly
constructed instance, true after a successful `connect`, and false after
any disconnect that returns true, for all three bindings. -/
theorem disconnect_clears_flag_when_release_succeeds :
    (∀ (s : SocketClientState) (c : Bool),
       (socketDisconnect s c).1 = true →
       (socketDisconnect s c).2.check_connection = false) ∧
    (∀ (s : SocketServerState) (c1 c2 : Bool),
       (serverDisconnect s c1 c2).1 = true →
       (serverDisconnect s c1 c2).2.check_connection = false) ∧
    (∀ (s : SerialState) (c : Bool),
       (serialDisconnect s c).1 = true →
       (serialDisconnect s c).2.check_connection = false) ∧
    (∀ (h : String) (p : Nat) (pr : String) (b : Nat) (st : SocketClientState),
       socketInit h p pr b = .ok st → st.check_connection = false) ∧
    (∀ (h : String) (p : Nat) (pr : String) (b : Nat) (st : SocketServerState),
       serverInit h p pr b = .ok st → st.check_connection = false) ∧
    (∀ (po : String) (ba : Nat) (t : ℚ) (bs : Nat) (pa : String) (sb : ℚ) (st : SerialState),
       serialInit po ba t bs pa sb = .ok st → st.check_connection = false) ∧
    (∀ (s : SocketClientState) (o : ConnectOutcome),
       (socketConnect s o).1 = true → (socketConnect s o).2.check_connection = true) ∧
    (∀ (s : SocketServerState) (o : ServerConnectOutcome),
       (serverConnect s o).1 = true → (serverConnect s o).2.check_connection = true) ∧
    (∀ (s : SerialState) (o : SerialConnectOutcome),
       (serialConnect s o).1 = true → (serialConnect s o).2.1.check_connection = true) := by
  refine ⟨?_, ?_, ?_, ?_, ?_, ?_, ?_, ?_, ?_⟩
  · intro s c h
    by_cases hs : s.sock <;> by_cases hc : c <;>
      simp_all [socketDisconnect, SocketClientState.check_connection]
  · intro s c1 c2 h
    by_cases h1 : s.client_sock <;> by_cases h2 : s.server_sock <;>
      by_cases h3 : c1 <;> by_cases h4 : c2 <;>
      simp_all [serverDisconnect, SocketServerState.check_connection]
  · intro s c h
    rcases hp : s.serial_port with _ | hh <;>
      simp_all [serialDisconnect, SerialState.check_connection] <;>
      by_cases ho : hh.is_open <;> by_cases hc : c <;> simp_all
  · intro h p pr b st hok
    by_cases hv : pyUpper pr = "TCP" ∨ pyUpper pr = "UDP" <;>
      simp_all [socketInit, SocketClientState.check_connection] <;>
      simp [← hok]
  · intro h p pr b st hok
    by_cases hv : pyUpper pr = "TCP" ∨ pyUpper pr = "UDP" <;>
      simp_all [serverInit, SocketServerState.check_connection] <;>
      simp [← hok]
  · intro po ba t bs pa sb st hok
    simp_all [serialInit, SerialState.check_connection]
    simp [← hok]
  · intro s o
    by_cases hp : s.protocol = "TCP" <;> cases o <;>
      simp_all [socketConnect, SocketClientState.check_connection]
  · intro s o
    by_cases hp : s.protocol = "TCP" <;> cases o <;>
      simp_all [serverConnect, SocketServerState.check_connection]
  · intro s o
    cases o <;> simp_all [serialConnect, SerialState.check_connection]

/-- C3 witness: the amended facts at concrete instances — a successful
disconnect of each connected example clears the flag, fresh
constructions start with the flag false, and successful connects set it. -/
theorem disconnect_clears_flag_when_release_succeeds_witness :
    (socketDisconnect clientConnEx true).2.check_connection = false ∧
    (serverDisconnect serverUdpEx true true).2.check_connection = false ∧
    (serialDisconnect serialOpenEx true).2.check_connection = false ∧
    ({ host := "127.0.0.1", port := 8888, protocol := "TCP", buffer_size := 4096,
       is_connected := false, sock := false } : SocketClientState).check_connection = false ∧
    serverDiscEx.check_connection = false ∧
    serialDiscEx.check_connection = false ∧
    (socketConnect clientDiscEx .ok).2.check_connection = true ∧
    (serverConnect serverDiscEx .udpBound).2.check_connection = true ∧
    (serialConnect serialDiscEx .opened).2.1.check_connection = true := by
  obtain ⟨h1, h2, h3, h4, h5, h6, h7, h8, h9⟩ := disconnect_clears_flag_when_release_succeeds
  exact ⟨h1 clientConnEx true rfl, h2 serverUdpEx true true rfl,
    h3 serialOpenEx true rfl,
    h4 "127.0.0.1" 8888 "TCP" 4096 _ rfl,
    h5 "0.0.0.0" 8888 "udp" 4096 serverDiscEx rfl,
    h6 "/dev/ttyUSB0" 115200 1 8 "N" 1 serialDiscEx rfl,
    h7 clientDiscEx .ok rfl, h8 serverDiscEx .udpBound rfl,
    h9 serialDiscEx .opened rfl⟩

/-- C4 counterexample: on a reachable connected TCP client state whose
`socket.close()` raises, the first of two successive `disconnect` calls
returns false, so "disconnect twice returns true both times" does not
hold for every reachable state. -/
theorem disconnect_idempotent_counterexample :
    (socketDisconnect clientConnEx false).1 = false := rfl

/-- C4 amended: when the resource release does not raise, `disconnect`
twice in a row returns true both times; moreover the second call on the
state left by a successful disconnect is a no-op that returns true and
leaves the state unchanged regardless of the oracle (no release is even
attempted), for all three bindings.  No disconnect ever raises: each is
a total function into a boolean result. -/
theorem disconnect_idempotent_when_release_succeeds :
    (∀ s : SocketClientState, (socketDisconnect s true).1 = true ∧
       socketDisconnect (socketDisconnect s true).2 true = (true, (socketDisconnect s true).2)) ∧
    (∀ s : SocketClientState, ∀ c : Bool,
       socketDisconnect (socketDisconnect s true).2 c = (true, (socketDisconnect s true).2)) ∧
    (∀ s : SocketServerState, (serverDisconnect s true true).1 = true ∧
       serverDisconnect (serverDisconnect s true true).2 true true
         = (true, (serverDisconnect s true true).2)) ∧
    (∀ s : SocketServerState, ∀ c1 c2 : Bool,
       serverDisconnect (serverDisconnect s true true).2 c1 c2
         = (true, (serverDisconnect s true true).2)) ∧
    (∀ s : SerialState, (serialDisconnect s true).1 = true ∧
       serialDisconnect (serialDisconnect s true).2 true = (true, (serialDisconnect s true).2)) ∧
    (∀ s : SerialState, ∀ c : Bool,
       serialDisconnect (serialDisconnect s true).2 c = (true, (serialDisconnect s true).2)) := by
  have hsc : ∀ s : SocketClientState, ∀ c : Bool,
      socketDisconnect (socketDisconnect s true).2 c = (true, (socketDisconnect s true).2) := by
    intro s c
    by_cases hs : s.sock <;> simp [socketDisconnect, hs]
  have hsv : ∀ s : SocketServerState, ∀ c1 c2 : Bool,
      serverDisconnect (serverDisconnect s true true).2 c1 c2
        = (true, (serverDisconnect s true true).2) := by
    intro s c1 c2
    by_cases h1 : s.client_sock <;> by_cases h2 : s.server_sock <;>
      simp [serverDisconnect, h1, h2]
  have hse : ∀ s : SerialState, ∀ c : Bool,
      serialDisconnect (serialDisconnect s true).2 c = (true, (serialDisconnect s true).2) := by
    intro s c
    rcases hp : s.serial_port with _ | hh
    · simp [serialDisconnect, hp]
    · by_cases ho : hh.is_open <;> simp [serialDisconnect, hp, ho]
  refine ⟨?_, hsc, ?_, hsv, ?_, hse⟩
  · intro s
    refine ⟨?_, hsc s true⟩
    by_cases hs : s.sock <;> simp [socketDisconnect, hs]
  · intro s
    refine ⟨?_, hsv s true true⟩
    by_cases h1 : s.client_sock <;> by_cases h2 : s.server_sock <;>
      simp [serverDisconnect, h1, h2]
  · intro s
    refine ⟨?_, hse s true⟩
    rcases hp : s.serial_port with _ | hh
    · simp [serialDisconnect, hp]
    · by_cases ho : hh.is_open <;> simp [serialDisconnect, hp, ho]

/-- C5: on the UDP server binding, `send_command` returns false (with no
transport write attempted) whenever no peer address is recorded; when
connected with a recorded peer it sends exactly one datagram to that
peer.  Every `receive_data` call that returns a message recorded the
arriving datagram's source as the new peer address (and indeed any
delivered datagram updates it), while `connect`, `disconnect` and
`send_command` leave the recorded peer address unchanged in UDP mode. -/
theorem udp_server_peer_tracking :
    (∀ (s : SocketServerState) (cmd : Json) (w : Bool),
       s.protocol = "UDP" → s.client_address = none →
       serverSendCommand s cmd w = (false, [])) ∧
    (∀ (s : SocketServerState) (cmd : Json) (w : Bool) (a : Addr),
       s.protocol = "UDP" → s.is_connected = true → s.client_address = some a →
       serverSendCommand s cmd w = (w, [.sendto (serverEncode cmd) a])) ∧
    (∀ (s : SocketServerState) (t : ℚ) (o : RecvOutcome) (j : Json)
       (st : SocketServerState) (tr : List Action),
       s.protocol = "UDP" → serverReceiveData s t o = (some j, st, tr) →
       ∃ bs src, o = .data bs src ∧ st.client_address = some src) ∧
    (∀ (s : SocketServerState) (t : ℚ) (bs : List Nat) (src : Addr),
       s.protocol = "UDP" → s.is_connected = true →
       (serverReceiveData s t (.data bs src)).2.1.client_address = some src) ∧
    (∀ (s : SocketServerState) (o : ServerConnectOutcome),
       s.protocol = "UDP" → (serverConnect s o).2.client_address = s.client_address) ∧
    (∀ (s : SocketServerState) (c1 c2 : Bool),
       (serverDisconnect s c1 c2).2.client_address = s.client_address) := by
  have hne : ("UDP" : String) ≠ "TCP" := by decide
  refine ⟨?_, ?_, ?_, ?_, ?_, ?_⟩
  · intro s cmd w hp ha
    by_cases hc : s.is_connected <;>
      simp_all [serverSendCommand]
  · intro s cmd w a hp hc ha
    simp_all [serverSendCommand]
  · intro s t o j st tr hp hrec
    by_cases hc : s.is_connected
    · cases o with
      | timeout => simp_all [serverReceiveData]
      | raised => simp_all [serverReceiveData]
      | data bs src =>
          refine ⟨bs, src, rfl, ?_⟩
          simp [serverReceiveData, hp, hc, hne] at hrec
          obtain ⟨-, h2, -⟩ := hrec
          subst h2
          rfl
    · simp_all [serverReceiveData]
  · intro s t bs src hp hc
    simp_all [serverReceiveData]
  · intro s o hp
    cases o <;> simp_all [serverConnect]
  · intro s c1 c2
    by_cases h1 : s.client_sock <;> by_cases h2 : s.server_sock <;>
      by_cases h3 : c1 <;> by_cases h4 : c2 <;> simp_all [serverDisconnect]

/-- C5 witness: the peer-tracking facts at the concrete UDP server
examples — a send with no recorded peer fails, a send with a recorded
peer targets it, and a delivered datagram becomes the recorded peer. -/
theorem udp_server_peer_tracking_witness :
    serverSendCommand { serverUdpEx with client_address := none } cmdEx true = (false, []) ∧
    serverSendCommand serverUdpEx cmdEx true
      = (true, [.sendto (serverEncode cmdEx) ("10.0.0.5", 9999)]) ∧
    (∃ bs src, (RecvOutcome.data [110, 117, 108, 108] ("9.9.9.9", 7)) = .data bs src ∧
       (serverReceiveData serverUdpEx 1 (.data [110, 117, 108, 108] ("9.9.9.9", 7))).2.1.client_address = some src) ∧
    (serverReceiveData serverUdpEx 1 (.data [48] ("9.9.9.9", 7))).2.1.client_address = some ("9.9.9.9", 7) ∧
    (serverConnect serverDiscEx .udpBound).2.client_address = serverDiscEx.client_address ∧
    (serverDisconnect serverUdpEx true true).2.client_address = serverUdpEx.client_address := by
  obtain ⟨h1, h2, h3, h4, h5, h6⟩ := udp_server_peer_tracking
  refine ⟨h1 _ cmdEx true rfl rfl, h2 serverUdpEx cmdEx true _ rfl rfl rfl, ?_, ?_, ?_, ?_⟩
  · exact h3 serverUdpEx 1 _ Json.null _ _ rfl rfl
  · exact h4 serverUdpEx 1 [48] ("9.9.9.9", 7) rfl rfl
  · exact h5 serverDiscEx .udpBound rfl
  · exact h6 serverUdpEx true true

/-- C10: `disconnect` on the socket server leaves `client_address`
untouched under every oracle; consequently after a successful disconnect
and a fresh successful UDP `connect`, `send_command` succeeds without
any intervening `receive_data` and addresses the datagram to the peer
recorded in the previous session. -/
theorem server_disconnect_preserves_peer_for_resend :
    (∀ (s : SocketServerState) (c1 c2 : Bool),
       (serverDisconnect s c1 c2).2.client_address = s.client_address) ∧
    (∀ (s : SocketServerState) (a : Addr) (cmd : Json),
       s.protocol = "UDP" → s.client_address = some a →
       (serverConnect (serverDisconnect s true true).2 .udpBound).1 = true ∧
       serverSendCommand (serverConnect (serverDisconnect s true true).2 .udpBound).2 cmd true
         = (true, [.sendto (serverEncode cmd) a])) := by
  have hframe : ∀ (s : SocketServerState) (c1 c2 : Bool),
      (serverDisconnect s c1 c2).2.client_address = s.client_address := by
    intro s c1 c2
    by_cases h1 : s.client_sock <;> by_cases h2 : s.server_sock <;>
      by_cases h3 : c1 <;> by_cases h4 : c2 <;> simp_all [serverDisconnect]
  refine ⟨hframe, ?_⟩
  intro s a cmd hp ha
  have hproto : (serverDisconnect s true true).2.protocol = s.protocol := by
    by_cases h1 : s.client_sock <;> by_cases h2 : s.server_sock <;>
      simp_all [serverDisconnect]
  have haddr := hframe s true true
  constructor
  · simp [serverConnect, hproto, hp]
  · simp_all [serverConnect, serverSendCommand, hproto, hp]

/-- C10 witness: the preserved-peer resend scenario on the concrete
running UDP server example. -/
theorem server_disconnect_preserves_peer_for_resend_witness :
    (serverDisconnect serverUdpEx false true).2.client_address = serverUdpEx.client_address ∧
    (serverConnect (serverDisconnect serverUdpEx true true).2 .udpBound).1 = true ∧
    serverSendCommand (serverConnect (serverDisconnect serverUdpEx true true).2 .udpBound).2 cmdEx true
      = (true, [.sendto (serverEncode cmdEx) ("10.0.0.5", 9999)]) := by
  obtain ⟨h1, h2⟩ := server_disconnect_preserves_peer_for_resend
  obtain ⟨ha, hb⟩ := h2 serverUdpEx ("10.0.0.5", 9999) cmdEx rfl rfl
  exact ⟨h1 serverUdpEx false true, ha, hb⟩

/-- C6 counterexample: the serial read-timeout override is not restored
on every exit path.  On the open example handle configured with timeout
1, a `receive_data(timeout=2)` call whose `readline` raises leaves the
handle's timeout at the overriding value 2 (the restore statement after
the read is skipped; there is no `finally` in the source). -/
theorem serial_timeout_restore_counterexample :
    (serialReceiveData serialOpenEx 2 .raised).2.1.serial_port
      = some { is_open := true, timeout := 2 } := rfl

/-- C6 amended: `receive_data` and `receive_raw_bytes` restore the
configured timeout on every exit path on which the read returns —
including an empty read and a decode failure, since decoding happens
after the restore — leaving the instance state exactly unchanged; but
on a path where the read itself raises, the override remains installed
on the handle. -/
theorem serial_timeout_restored_unless_read_raises :
    (∀ (s : SerialState) (t : ℚ) (bs : List Nat),
       (serialReceiveData s t (.bytes bs)).2.1 = s) ∧
    (∀ (s : SerialState) (sz : Nat) (t : ℚ) (bs : List Nat),
       (serialReceiveRawBytes s sz t (.bytes bs)).2.1 = s) ∧
    (∀ (s : SerialState) (t : ℚ) (h : SerialHandle),
       serialGuard s = true → s.serial_port = some h →
       (serialReceiveData s t .raised).2.1.serial_port = some { h with timeout := t }) ∧
    (∀ (s : SerialState) (sz : Nat) (t : ℚ) (h : SerialHandle),
       serialGuard s = true → s.serial_port = some h →
       (serialReceiveRawBytes s sz t .raised).2.1.serial_port = some { h with timeout := t }) := by
  refine ⟨?_, ?_, ?_, ?_⟩
  · intro s t bs
    by_cases hg : serialGuard s = false <;>
      rcases hp : s.serial_port with _ | hh <;>
      simp_all [serialReceiveData]
  · intro s sz t bs
    by_cases hg : serialGuard s = false <;>
      rcases hp : s.serial_port with _ | hh <;>
      simp_all [serialReceiveRawBytes]
  · intro s t h hg hp
    simp_all [serialReceiveData]
  · intro s sz t h hg hp
    simp_all [serialReceiveRawBytes]

/-- C6 witness: on the open example handle, a returning read (even one
whose payload fails to decode) leaves the state unchanged, and a raising
read leaves the override installed. -/
theorem serial_timeout_restored_unless_read_raises_witness :
    (serialReceiveData serialOpenEx 2 (.bytes [104, 105, 10])).2.1 = serialOpenEx ∧
    (serialReceiveRawBytes serialOpenEx 4 2 (.bytes [1, 2])).2.1 = serialOpenEx ∧
    (serialReceiveData serialOpenEx 2 .raised).2.1.serial_port
      = some { is_open := true, timeout := (2 : ℚ) } ∧
    (serialReceiveRawBytes serialOpenEx 4 2 .raised).2.1.serial_port
      = some { is_open := true, timeout := (2 : ℚ) } := by
  obtain ⟨h1, h2, h3, h4⟩ := serial_timeout_restored_unless_read_raises
  exact ⟨h1 serialOpenEx 2 [104, 105, 10], h2 serialOpenEx 4 2 [1, 2],
    h3 serialOpenEx 2 { is_open := true, timeout := 1 } rfl rfl,
    h4 serialOpenEx 4 2 { is_open := true, timeout := 1 } rfl rfl⟩

/-- C7 counterexample: `receive_raw_bytes(size=5)` on the open example
handle, when the port delivers only three bytes before the timeout
(permitted by the pyserial `read` contract), returns those three bytes —
a byte string whose length is not the caller-specified size. -/
theorem receive_raw_bytes_exact_size_counterexample :
    (serialReceiveRawBytes serialOpenEx 5 1 (.bytes [1, 2, 3])).1 = some [1, 2, 3] ∧
    List.length [1, 2, 3] ≠ 5 := by
  exact ⟨rfl, by decide⟩

/-- C7 amended: whenever `receive_raw_bytes(size, timeout)` returns a
byte string, it is exactly the bytes the port delivered, it is
non-empty, and — given pyserial's contract that `read(size)` delivers at
most `size` bytes — its length is at most `size`; length exactly `size`
is guaranteed only when the port delivers a full `size` bytes in time. -/
theorem receive_raw_bytes_length_at_most_size :
    ∀ (s : SerialState) (sz : Nat) (t : ℚ) (bs r : List Nat),
      bs.length ≤ sz →
      (serialReceiveRawBytes s sz t (.bytes bs)).1 = some r →
      r = bs ∧ 0 < r.length ∧ r.length ≤ sz := by
  intro s sz t bs r hlen hr
  by_cases hg : serialGuard s = false
  · simp [serialReceiveRawBytes, hg] at hr
  · rcases hp : s.serial_port with _ | hh
    · exact absurd (by simp [serialGuard, hp]) hg
    · by_cases hbs : bs = []
      · simp [serialReceiveRawBytes, hg, hp, hbs] at hr
      · simp [serialReceiveRawBytes, hg, hp, hbs] at hr
        subst hr
        exact ⟨rfl, List.length_pos.mpr hbs, hlen⟩

/-- C7 witness: a full-size delivery on the open example handle comes
back exactly, non-empty and within the size bound. -/
theorem receive_raw_bytes_length_at_most_size_witness :
    [1, 2, 3, 4, 5].length ≤ 5 ∧
    (serialReceiveRawBytes serialOpenEx 5 1 (.bytes [1, 2, 3, 4, 5])).1 = some [1, 2, 3, 4, 5] ∧
    ([1, 2, 3, 4, 5] : List Nat) = [1, 2, 3, 4, 5] ∧
    0 < List.length [1, 2, 3, 4, 5] ∧ List.length [1, 2, 3, 4, 5] ≤ 5 := by
  have h := receive_raw_bytes_length_at_most_size serialOpenEx 5 1
    [1, 2, 3, 4, 5] [1, 2, 3, 4, 5] (by decide) rfl
  exact ⟨by decide, rfl, h.1, h.2.1, h.2.2⟩

/-- C8: the claim states `list_available_ports` never raises and returns
an empty sequence when enumeration errors.  In the source the except
branch evaluates `logging.error(...)`, but `serial_teleop.py` never
imports `logging`, so on an enumeration failure a `NameError` escapes to
the caller instead of the intended `return []`: the code contradicts the
documented fail-safe intent.  This theorem evaluates the model at the
failing input. -/
theorem list_available_ports_raises_on_enumeration_error :
    listAvailablePorts (.error .valueError) = .error .nameError ∧
    listAvailablePorts (.ok ["/dev/ttyUSB0"]) = .ok ["/dev/ttyUSB0"] := by
  exact ⟨rfl, rfl⟩

/-- C9 counterexample: the serial constructor performs no parameter
validation — constructing with `bytesize=9`, `parity='X'`, `stopbits=3`
(all outside the recognized values) succeeds rather than failing at
construction. -/
theorem serial_init_no_validation_counterexample :
    serialInit "/dev/ttyUSB0" 115200 1 9 "X" 3
      = .ok { port := "/dev/ttyUSB0", baudrate := 115200, timeout := 1, bytesize := 9,
              parity := "X", stopbits := 3, is_connected := false, serial_port := none } := rfl

/-- C9 amended: the socket constructions (client and server) fail fast
at construction, before any I/O, by raising `ValueError` whenever the
upper-cased protocol name is neither TCP nor UDP (so the check is
case-insensitive), and a successful construction performs no I/O (no
socket is created, the flag is false); the serial constructor, in
contrast, stores its parameters without validation, and invalid device
parameters surface only at `connect`, which catches the open failure
and returns false. -/
theorem config_validation_socket_only :
    (∀ (h : String) (p : Nat) (pr : String) (b : Nat),
       pyUpper pr ≠ "TCP" → pyUpper pr ≠ "UDP" →
       socketInit h p pr b = .error .valueError) ∧
    (∀ (h : String) (p : Nat) (pr : String) (b : Nat),
       pyUpper pr ≠ "TCP" → pyUpper pr ≠ "UDP" →
       serverInit h p pr b = .error .valueError) ∧
    (∀ (h : String) (p : Nat) (pr : String) (b : Nat) (st : SocketClientState),
       socketInit h p pr b = .ok st →
       st.sock = false ∧ st.is_connected = false ∧
       (st.protocol = "TCP" ∨ st.protocol = "UDP")) ∧
    (∀ (po : String) (ba : Nat) (t : ℚ) (bs : Nat) (pa : String) (sb : ℚ),
       serialInit po ba t bs pa sb
         = .ok { port := po, baudrate := ba, timeout := t, bytesize := bs,
                 parity := pa, stopbits := sb, is_connected := false, serial_port := none }) ∧
    (∀ s : SerialState,
       serialConnect s .openFail = (false, { s with is_connected := false }, [])) := by
  refine ⟨?_, ?_, ?_, ?_, ?_⟩
  · intro h p pr b h1 h2
    simp [socketInit, h1, h2]
  · intro h p pr b h1 h2
    simp [serverInit, h1, h2]
  · intro h p pr b st hok
    by_cases hv : pyUpper pr = "TCP" ∨ pyUpper pr = "UDP" <;>
      simp_all [socketInit] <;> simp [← hok] <;> tauto
  · intro po ba t bs pa sb
    rfl
  · intro s
    rfl

/-- C9 witness: `protocol="foo"` is rejected by both socket
constructors, `protocol="tcp"` is accepted case-insensitively with no
socket created, the invalid serial construction succeeds, and the
subsequent failing `connect` returns false. -/
theorem config_validation_socket_only_witness :
    socketInit "127.0.0.1" 8888 "foo" 4096 = .error .valueError ∧
    serverInit "0.0.0.0" 8888 "foo" 4096 = .error .valueError ∧
    ((socketInit "127.0.0.1" 8888 "tcp" 4096 = .ok
       { host := "127.0.0.1", port := 8888, protocol := "TCP", buffer_size := 4096,
         is_connected := false, sock := false }) ∧
     ({ host := "127.0.0.1", port := 8888, protocol := "TCP", buffer_size := 4096,
        is_connected := false, sock := false } : SocketClientState).sock = false) ∧
    serialInit "/dev/ttyUSB0" 115200 1 9 "X" 3
      = .ok { port := "/dev/ttyUSB0", baudrate := 115200, timeout := 1, bytesize := 9,
              parity := "X", stopbits := 3, is_connected := false, serial_port := none } ∧
    serialConnect serialDiscEx .openFail
      = (false, { serialDiscEx with is_connected := false }, []) := by
  obtain ⟨h1, h2, h3, h4, h5⟩ := config_validation_socket_only
  refine ⟨h1 "127.0.0.1" 8888 "foo" 4096 (by decide) (by decide),
    h2 "0.0.0.0" 8888 "foo" 4096 (by decide) (by decide),
    ⟨rfl, (h3 "127.0.0.1" 8888 "tcp" 4096 _ rfl).1⟩,
    h4 "/dev/ttyUSB0" 115200 1 9 "X" 3,
    h5 serialDiscEx⟩

/-! ### Helper lemmas for the wire-codec round trip -/

theorem hexVal_hexDig : ∀ d : Nat, d < 16 → hexVal (hexDig d) = some d := by
  decide

theorem hex4Val_hex4 (n : Nat) (h : n < 65536) :
    hex4Val (hexDig (n / 4096 % 16)) (hexDig (n / 256 % 16))
      (hexDig (n / 16 % 16)) (hexDig (n % 16)) = some n := by
  rw [hex4Val, hexVal_hexDig _ (by omega), hexVal_hexDig _ (by omega),
    hexVal_hexDig _ (by omega), hexVal_hexDig _ (by omega)]
  simp only [Option.some.injEq]
  omega

theorem natReprAux_digits :
    ∀ n acc, (∀ c ∈ acc, 48 ≤ c ∧ c ≤ 57) → ∀ c ∈ natReprAux n acc, 48 ≤ c ∧ c ≤ 57 := by
  intro n
  induction n using Nat.strong_induction_on with
  | _ n ih =>
    intro acc hacc c hc
    by_cases h : n < 10
    · rw [natReprAux, dif_pos h] at hc
      rcases List.mem_cons.mp hc with rfl | hc
      · omega
      · exact hacc c hc
    · rw [natReprAux, dif_neg h] at hc
      refine ih (n / 10) (Nat.div_lt_self (by omega) (by omega)) _ ?_ c hc
      intro x hx
      rcases List.mem_cons.mp hx with rfl | hx
      · omega
      · exact hacc x hx

theorem natReprAux_shape :
    ∀ n acc, ∃ c r, natReprAux n acc = c :: r ∧ 48 ≤ c ∧ c ≤ 57 ∧ (1 ≤ n → 49 ≤ c) := by
  intro n
  induction n using Nat.strong_induction_on with
  | _ n ih =>
    intro acc
    by_cases h : n < 10
    · exact ⟨48 + n, acc, by rw [natReprAux, dif_pos h], by omega, by omega, by omega⟩
    · obtain ⟨c, r, hrep, h1, h2, h3⟩ :=
        ih (n / 10) (Nat.div_lt_self (by omega) (by omega)) ((48 + n % 10) :: acc)
      refine ⟨c, r, ?_, h1, h2, fun _ => h3 (by omega)⟩
      rw [natReprAux, dif_neg h, hrep]

theorem natReprAux_foldl :
    ∀ n acc a, ∃ e, 0 < e ∧
      List.foldl (fun x c => x * 10 + (c - 48)) a (natReprAux n acc)
        = List.foldl (fun x c => x * 10 + (c - 48)) (a * 10 ^ e + n) acc := by
  intro n
  induction n using Nat.strong_induction_on with
  | _ n ih =>
    intro acc a
    by_cases h : n < 10
    · refine ⟨1, by omega, ?_⟩
      rw [natReprAux, dif_pos h, List.foldl_cons, pow_one]
      congr 1
      omega
    · obtain ⟨e, he, heq⟩ :=
        ih (n / 10) (Nat.div_lt_self (by omega) (by omega)) ((48 + n % 10) :: acc) a
      refine ⟨e + 1, by omega, ?_⟩
      rw [natReprAux, dif_neg h, heq, List.foldl_cons]
      congr 1
      rw [pow_succ, ← mul_assoc]
      generalize a * 10 ^ e = b
      omega

theorem digitsVal_natRepr (n : Nat) : digitsVal (natRepr n) = n := by
  obtain ⟨e, he, heq⟩ := natReprAux_foldl n [] 0
  simp only [digitsVal, natRepr, heq, List.foldl_nil]
  omega

theorem takeWhile_append_all {p : Nat → Bool} :
    ∀ l r : List Nat, (∀ c ∈ l, p c = true) →
      (l ++ r).takeWhile p = l ++ r.takeWhile p := by
  intro l r h
  induction l with
  | nil => simp
  | cons a l ihl =>
    have ha : p a = true := h a (by simp)
    simp only [List.cons_append, List.takeWhile_cons, ha, if_true]
    rw [ihl (fun c hc => h c (by simp [hc]))]

theorem dropWhile_append_all {p : Nat → Bool} :
    ∀ l r : List Nat, (∀ c ∈ l, p c = true) →
      (l ++ r).dropWhile p = r.dropWhile p := by
  intro l r h
  induction l with
  | nil => simp
  | cons a l ihl =>
    have ha : p a = true := h a (by simp)
    simp only [List.cons_append, List.dropWhile_cons, ha, if_true]
    exact ihl (fun c hc => h c (by simp [hc]))

theorem numBoundaryB_not_digit {c : Nat} {r : List Nat}
    (hb : numBoundaryB (c :: r) = true) :
    isDigitB c = false ∧ c ≠ 46 ∧ c ≠ 101 ∧ c ≠ 69 := by
  simp [numBoundaryB] at hb
  refine ⟨?_, ?_, ?_, ?_⟩ <;> tauto

theorem floatFollows_of_boundary {rest : List Nat}
    (hb : numBoundaryB rest = true) : floatFollows rest = false := by
  cases rest with
  | nil => rfl
  | cons c r =>
    obtain ⟨-, h46, h101, h69⟩ := numBoundaryB_not_digit hb
    simp [floatFollows, h46, h101, h69]

theorem takeWhile_digits_of_boundary {rest : List Nat}
    (hb : numBoundaryB rest = true) :
    rest.takeWhile isDigitB = [] ∧ rest.dropWhile isDigitB = rest := by
  cases rest with
  | nil => simp
  | cons c r =>
    obtain ⟨hd, -, -, -⟩ := numBoundaryB_not_digit hb
    simp [List.takeWhile_cons, List.dropWhile_cons, hd]

theorem parseDigitsRun_natRepr (n : Nat) (rest : List Nat)
    (hb : numBoundaryB rest = true) :
    parseDigitsRun (natRepr n ++ rest) = some (n, rest) := by
  obtain ⟨htw, hdw⟩ := takeWhile_digits_of_boundary hb
  have hdigits : ∀ x ∈ natRepr n, isDigitB x = true := by
    intro x hx
    have := natReprAux_digits n [] (by simp) x hx
    simp [isDigitB]
    omega
  obtain ⟨c, r, hrep, h48, h57, hpos⟩ := natReprAux_shape n []
  have hrepn : natRepr n = c :: r := hrep
  by_cases hn : n = 0
  · subst hn
    have h0 : natRepr 0 = [48] := by rw [natRepr, natReprAux, dif_pos (by omega)]
    rw [h0]
    simp only [List.cons_append, List.nil_append, parseDigitsRun]
    norm_num [isDigitB]
  · have h49 : 49 ≤ c := hpos (by omega)
    rw [hrepn]
    simp only [List.cons_append, parseDigitsRun]
    have hdc : isDigitB c = true := hdigits c (by rw [hrepn]; simp)
    rw [if_pos hdc, if_neg (by omega : ¬c = 48)]
    have h1 : ((c :: r) ++ rest).takeWhile isDigitB = (c :: r) ++ rest.takeWhile isDigitB :=
      takeWhile_append_all _ _ (by rw [← hrepn]; exact hdigits)
    have h2 : ((c :: r) ++ rest).dropWhile isDigitB = rest.dropWhile isDigitB :=
      dropWhile_append_all _ _ (by rw [← hrepn]; exact hdigits)
    simp only [List.cons_append] at h1 h2
    rw [h1, h2, htw, hdw, List.append_nil, ← hrepn, digitsVal_natRepr]

theorem parseNumberTok_intRepr (i : Int) (rest : List Nat)
    (hb : numBoundaryB rest = true) :
    parseNumberTok (intRepr i ++ rest) = some (i, rest) := by
  have hff := floatFollows_of_boundary hb
  by_cases hi : i < 0
  · rw [intRepr, if_pos hi]
    simp only [List.cons_append]
    simp [parseNumberTok, parseDigitsRun_natRepr i.natAbs rest hb, hff]
    rw [abs_of_neg hi]
    omega
  · rw [intRepr, if_neg hi]
    obtain ⟨c, r, hrep, h48, h57, -⟩ := natReprAux_shape i.toNat []
    have hrepn : natRepr i.toNat = c :: r := hrep
    rw [hrepn]
    simp only [List.cons_append, parseNumberTok]
    rw [if_neg (by omega : ¬c = 45), ← List.cons_append, ← hrepn,
      parseDigitsRun_natRepr i.toNat rest hb]
    simp [hff]
    omega

theorem skipWs_cons_nws {c : Nat} (l : List Nat) (h : isWsB c = false) :
    skipWs (c :: l) = c :: l := by
  simp [skipWs, h]

theorem skipWs_32 (l : List Nat) : skipWs (32 :: l) = skipWs l := by
  rfl

theorem parseValue_ws (f : Nat) (l : List Nat) :
    parseValue f (32 :: l) = parseValue f l := by
  cases f with
  | zero => rfl
  | succ f => simp only [parseValue, skipWs_32]

theorem parseItems_ws (f : Nat) (l : List Nat) :
    parseItems f (32 :: l) = parseItems f l := by
  cases f with
  | zero => rfl
  | succ f => simp only [parseItems, parseValue_ws]

theorem parseMembers_ws (f : Nat) (l : List Nat) :
    parseMembers f (32 :: l) = parseMembers f l := by
  cases f with
  | zero => rfl
  | succ f => simp only [parseMembers, skipWs_32]

theorem validScalar_spec {c : Nat} (h : validScalar c = true) :
    c < 55296 ∨ (57343 < c ∧ c < 1114112) := by
  unfold validScalar at h
  by_cases h1 : c < 55296
  · exact Or.inl h1
  · by_cases h2 : c ≤ 57343
    · rw [if_neg h1, if_pos h2] at h
      exact absurd h (by simp)
    · rw [if_neg h1, if_neg h2, decide_eq_true_eq] at h
      exact Or.inr ⟨by omega, h⟩

theorem psb_quote (f : Nat) (rest : List Nat) :
    parseStringBody (f + 1) (34 :: rest) = some ([], rest) := rfl

theorem psb_short_34 (f : Nat) (rest : List Nat) :
    parseStringBody (f + 1) (92 :: 34 :: rest) = consChar 34 (parseStringBody f rest) := rfl

theorem psb_short_92 (f : Nat) (rest : List Nat) :
    parseStringBody (f + 1) (92 :: 92 :: rest) = consChar 92 (parseStringBody f rest) := rfl

theorem psb_short_98 (f : Nat) (rest : List Nat) :
    parseStringBody (f + 1) (92 :: 98 :: rest) = consChar 8 (parseStringBody f rest) := rfl

theorem psb_short_116 (f : Nat) (rest : List Nat) :
    parseStringBody (f + 1) (92 :: 116 :: rest) = consChar 9 (parseStringBody f rest) := rfl

theorem psb_short_110 (f : Nat) (rest : List Nat) :
    parseStringBody (f + 1) (92 :: 110 :: rest) = consChar 10 (parseStringBody f rest) := rfl

theorem psb_short_102 (f : Nat) (rest : List Nat) :
    parseStringBody (f + 1) (92 :: 102 :: rest) = consChar 12 (parseStringBody f rest) := rfl

theorem psb_short_114 (f : Nat) (rest : List Nat) :
    parseStringBody (f + 1) (92 :: 114 :: rest) = consChar 13 (parseStringBody f rest) := rfl

theorem psb_plain (f c : Nat) (rest : List Nat)
    (h34 : c ≠ 34) (h92 : c ≠ 92) (h32 : ¬c < 32) :
    parseStringBody (f + 1) (c :: rest) = consChar c (parseStringBody f rest) := by
  simp [parseStringBody, h34, h92, h32]

theorem psb_u (f n : Nat) (rest2 : List Nat) (hn : n < 65536)
    (hns : ¬(55296 ≤ n ∧ n ≤ 56319)) :
    parseStringBody (f + 1) (92 :: 117 :: hex4 n ++ rest2)
      = consChar n (parseStringBody f rest2) := by
  simp [parseStringBody, hex4, hex4Val_hex4 n hn, hns]

theorem psb_u_pair (f n m : Nat) (rest3 : List Nat) (hn : 55296 ≤ n ∧ n ≤ 56319)
    (hm : 56320 ≤ m ∧ m ≤ 57343) :
    parseStringBody (f + 1) (92 :: 117 :: hex4 n ++ (92 :: 117 :: hex4 m ++ rest3))
      = consChar (65536 + (n - 55296) * 1024 + (m - 56320)) (parseStringBody f rest3) := by
  simp [parseStringBody, hex4, hex4Val_hex4 n (by omega), hex4Val_hex4 m (by omega), hn, hm]

theorem parseStringBody_esc :
    ∀ s fuel rest, wfStr s = true → s.length < fuel →
      parseStringBody fuel (escStringAux s ++ rest) = some (s, rest) := by
  intro s
  induction s with
  | nil =>
    intro fuel rest hwf hfuel
    cases fuel with
    | zero => omega
    | succ f => exact psb_quote f rest
  | cons c cs ih =>
    intro fuel rest hwf hfuel
    cases fuel with
    | zero => omega
    | succ f =>
      rw [wfStr, List.all_cons, Bool.and_eq_true] at hwf
      obtain ⟨hvc, hwcs⟩ := hwf
      have ihr := ih f rest hwcs (by simp at hfuel; omega)
      rw [escStringAux, List.append_assoc]
      by_cases h34 : c = 34
      · subst h34
        rw [show escChar 34 = [92, 34] from rfl]
        simp only [List.cons_append, List.nil_append]
        rw [psb_short_34, ihr]
        rfl
      · by_cases h92 : c = 92
        · subst h92
          rw [show escChar 92 = [92, 92] from rfl]
          simp only [List.cons_append, List.nil_append]
          rw [psb_short_92, ihr]
          rfl
        · by_cases h8 : c = 8
          · subst h8
            rw [show escChar 8 = [92, 98] from rfl]
            simp only [List.cons_append, List.nil_append]
            rw [psb_short_98, ihr]
            rfl
          · by_cases h9 : c = 9
            · subst h9
              rw [show escChar 9 = [92, 116] from rfl]
              simp only [List.cons_append, List.nil_append]
              rw [psb_short_116, ihr]
              rfl
            · by_cases h10 : c = 10
              · subst h10
                rw [show escChar 10 = [92, 110] from rfl]
                simp only [List.cons_append, List.nil_append]
                rw [psb_short_110, ihr]
                rfl
              · by_cases h12 : c = 12
                · subst h12
                  rw [show escChar 12 = [92, 102] from rfl]
                  simp only [List.cons_append, List.nil_append]
                  rw [psb_short_102, ihr]
                  rfl
                · by_cases h13 : c = 13
                  · subst h13
                    rw [show escChar 13 = [92, 114] from rfl]
                    simp only [List.cons_append, List.nil_append]
                    rw [psb_short_114, ihr]
                    rfl
                  · by_cases hlt32 : c < 32
                    · have hesc : escChar c = 92 :: 117 :: hex4 c := by
                        rw [escChar, if_neg h34, if_neg h92, if_neg h8, if_neg h9,
                          if_neg h10, if_neg h12, if_neg h13, if_pos hlt32]
                      rw [hesc]
                      rw [psb_u f c _ (by omega) (by omega), ihr]
                      rfl
                    · by_cases hle126 : c ≤ 126
                      · have hesc : escChar c = [c] := by
                          rw [escChar, if_neg h34, if_neg h92, if_neg h8, if_neg h9,
                            if_neg h10, if_neg h12, if_neg h13, if_neg hlt32, if_pos hle126]
                        rw [hesc]
                        simp only [List.cons_append, List.nil_append]
                        rw [psb_plain f c _ h34 h92 hlt32, ihr]
                        rfl
                      · by_cases hlt65536 : c < 65536
                        · have hns : ¬(55296 ≤ c ∧ c ≤ 56319) := by
                            rcases validScalar_spec hvc with h | h <;> omega
                          have hesc : escChar c = 92 :: 117 :: hex4 c := by
                            rw [escChar, if_neg h34, if_neg h92, if_neg h8, if_neg h9,
                              if_neg h10, if_neg h12, if_neg h13, if_neg hlt32,
                              if_neg hle126, if_pos hlt65536]
                          rw [hesc]
                          rw [psb_u f c _ hlt65536 hns, ihr]
                          rfl
                        · have hup : c < 1114112 := by
                            rcases validScalar_spec hvc with h | h <;> omega
                          have hesc : escChar c =
                              (92 :: 117 :: hex4 (55296 + (c - 65536) / 1024)) ++
                                (92 :: 117 :: hex4 (56320 + (c - 65536) % 1024)) := by
                            rw [escChar, if_neg h34, if_neg h92, if_neg h8, if_neg h9,
                              if_neg h10, if_neg h12, if_neg h13, if_neg hlt32,
                              if_neg hle126, if_neg hlt65536]
                          rw [hesc]
                          rw [List.append_assoc]
                          rw [psb_u_pair f _ _ _ (by omega) (by omega), ihr]
                          rw [show 65536 + (55296 + (c - 65536) / 1024 - 55296) * 1024 +
                              (56320 + (c - 65536) % 1024 - 56320) = c by omega]
                          rfl

theorem hexDig_bounds (d : Nat) (h : d < 16) : 32 ≤ hexDig d ∧ hexDig d ≤ 126 := by
  simp only [hexDig]
  split_ifs <;> omega

theorem escChar_cases (c : Nat) :
    escChar c = [92, 34] ∨ escChar c = [92, 92] ∨ escChar c = [92, 98] ∨
    escChar c = [92, 116] ∨ escChar c = [92, 110] ∨ escChar c = [92, 102] ∨
    escChar c = [92, 114] ∨
    (escChar c = 92 :: 117 :: hex4 c ∧ c < 65536) ∨
    (escChar c = [c] ∧ 32 ≤ c ∧ c ≤ 126) ∨
    escChar c = (92 :: 117 :: hex4 (55296 + (c - 65536) / 1024)) ++
      (92 :: 117 :: hex4 (56320 + (c - 65536) % 1024)) := by
  by_cases h34 : c = 34
  · subst h34; exact Or.inl rfl
  · by_cases h92 : c = 92
    · subst h92; exact Or.inr (Or.inl rfl)
    · by_cases h8 : c = 8
      · subst h8; exact Or.inr (Or.inr (Or.inl rfl))
      · by_cases h9 : c = 9
        · subst h9; exact Or.inr (Or.inr (Or.inr (Or.inl rfl)))
        · by_cases h10 : c = 10
          · subst h10; exact Or.inr (Or.inr (Or.inr (Or.inr (Or.inl rfl))))
          · by_cases h12 : c = 12
            · subst h12
              exact Or.inr (Or.inr (Or.inr (Or.inr (Or.inr (Or.inl rfl)))))
            · by_cases h13 : c = 13
              · subst h13
                exact Or.inr (Or.inr (Or.inr (Or.inr (Or.inr (Or.inr (Or.inl rfl))))))
              · by_cases hlt32 : c < 32
                · refine Or.inr (Or.inr (Or.inr (Or.inr (Or.inr (Or.inr (Or.inr
                    (Or.inl ⟨?_, by omega⟩)))))))
                  rw [escChar, if_neg h34, if_neg h92, if_neg h8, if_neg h9,
                    if_neg h10, if_neg h12, if_neg h13, if_pos hlt32]
                · by_cases hle126 : c ≤ 126
                  · refine Or.inr (Or.inr (Or.inr (Or.inr (Or.inr (Or.inr (Or.inr
                      (Or.inr (Or.inl ⟨?_, by omega, hle126⟩))))))))
                    rw [escChar, if_neg h34, if_neg h92, if_neg h8, if_neg h9,
                      if_neg h10, if_neg h12, if_neg h13, if_neg hlt32, if_pos hle126]
                  · by_cases hlt65536 : c < 65536
                    · refine Or.inr (Or.inr (Or.inr (Or.inr (Or.inr (Or.inr (Or.inr
                        (Or.inl ⟨?_, hlt65536⟩)))))))
                      rw [escChar, if_neg h34, if_neg h92, if_neg h8, if_neg h9,
                        if_neg h10, if_neg h12, if_neg h13, if_neg hlt32,
                        if_neg hle126, if_pos hlt65536]
                    · refine Or.inr (Or.inr (Or.inr (Or.inr (Or.inr (Or.inr (Or.inr
                        (Or.inr (Or.inr ?_))))))))
                      rw [escChar, if_neg h34, if_neg h92, if_neg h8, if_neg h9,
                        if_neg h10, if_neg h12, if_neg h13, if_neg hlt32,
                        if_neg hle126, if_neg hlt65536]

theorem escChar_ne_nil (c : Nat) : 1 ≤ (escChar c).length := by
  rcases escChar_cases c with h | h | h | h | h | h | h | ⟨h, -⟩ | ⟨h, -⟩ | h <;>
    rw [h] <;> simp [hex4]

theorem print_nil : ∀ x ∈ ([] : List Nat), 32 ≤ x ∧ x ≤ 126 := by
  simp

theorem print_cons {a : Nat} {l : List Nat} (ha : 32 ≤ a ∧ a ≤ 126)
    (hl : ∀ x ∈ l, 32 ≤ x ∧ x ≤ 126) : ∀ x ∈ a :: l, 32 ≤ x ∧ x ≤ 126 := by
  intro x hx
  rcases List.mem_cons.mp hx with rfl | hx
  · exact ha
  · exact hl x hx

theorem print_append {l1 l2 : List Nat} (h1 : ∀ x ∈ l1, 32 ≤ x ∧ x ≤ 126)
    (h2 : ∀ x ∈ l2, 32 ≤ x ∧ x ≤ 126) : ∀ x ∈ l1 ++ l2, 32 ≤ x ∧ x ≤ 126 := by
  intro x hx
  rcases List.mem_append.mp hx with hx | hx
  · exact h1 x hx
  · exact h2 x hx

theorem hex4_print (n : Nat) : ∀ x ∈ hex4 n, 32 ≤ x ∧ x ≤ 126 := by
  rw [hex4]
  exact print_cons (hexDig_bounds _ (by omega))
    (print_cons (hexDig_bounds _ (by omega))
      (print_cons (hexDig_bounds _ (by omega))
        (print_cons (hexDig_bounds _ (by omega)) print_nil)))

theorem escChar_print (c : Nat) : ∀ x ∈ escChar c, 32 ≤ x ∧ x ≤ 126 := by
  rcases escChar_cases c with h | h | h | h | h | h | h | ⟨h, -⟩ | ⟨h, hc1, hc2⟩ | h <;> rw [h]
  · exact print_cons (by omega) (print_cons (by omega) print_nil)
  · exact print_cons (by omega) (print_cons (by omega) print_nil)
  · exact print_cons (by omega) (print_cons (by omega) print_nil)
  · exact print_cons (by omega) (print_cons (by omega) print_nil)
  · exact print_cons (by omega) (print_cons (by omega) print_nil)
  · exact print_cons (by omega) (print_cons (by omega) print_nil)
  · exact print_cons (by omega) (print_cons (by omega) print_nil)
  · exact print_cons (by omega) (print_cons (by omega) (hex4_print c))
  · exact print_cons (by omega) print_nil
  · exact print_append
      (print_cons (by omega) (print_cons (by omega) (hex4_print _)))
      (print_cons (by omega) (print_cons (by omega) (hex4_print _)))

theorem escStringAux_print : ∀ s : List Nat, ∀ x ∈ escStringAux s, 32 ≤ x ∧ x ≤ 126 := by
  intro s
  induction s with
  | nil =>
    intro x hx
    simp [escStringAux] at hx
    omega
  | cons c cs ih =>
    intro x hx
    rw [escStringAux] at hx
    rcases List.mem_append.mp hx with hx | hx
    · exact escChar_print c x hx
    · exact ih x hx

theorem natRepr_digits (n : Nat) : ∀ x ∈ natRepr n, 48 ≤ x ∧ x ≤ 57 :=
  natReprAux_digits n [] (by simp)

theorem intRepr_print (i : Int) : ∀ x ∈ intRepr i, 32 ≤ x ∧ x ≤ 126 := by
  intro x hx
  rw [intRepr] at hx
  split_ifs at hx
  · rcases List.mem_cons.mp hx with rfl | hx
    · omega
    · have := natRepr_digits i.natAbs x hx
      omega
  · have := natRepr_digits i.toNat x hx
    omega

theorem jsizeV_pos (m : Json) : 1 ≤ jsizeV m := by
  cases m <;> simp [jsizeV]

theorem jsizeL_pos (xs : List Json) : 1 ≤ jsizeL xs := by
  cases xs <;> simp [jsizeL]

theorem jsizeM_pos (ms : List (List Nat × Json)) : 1 ≤ jsizeM ms := by
  cases ms <;> simp [jsizeM]

theorem dump_print_all : ∀ N : Nat,
    (∀ m : Json, jsizeV m ≤ N → ∀ x ∈ dumpVal m, 32 ≤ x ∧ x ≤ 126) ∧
    (∀ xs : List Json, jsizeL xs ≤ N → ∀ x ∈ dumpItems xs, 32 ≤ x ∧ x ≤ 126) ∧
    (∀ ms : List (List Nat × Json), jsizeM ms ≤ N → ∀ x ∈ dumpMembers ms, 32 ≤ x ∧ x ≤ 126) := by
  intro N
  induction N using Nat.strong_induction_on with
  | _ N ih =>
    refine ⟨?_, ?_, ?_⟩
    · intro m hm
      cases m with
      | null =>
        rw [show dumpVal Json.null = [110, 117, 108, 108] from rfl]
        exact print_cons (by omega) (print_cons (by omega)
          (print_cons (by omega) (print_cons (by omega) print_nil)))
      | bool b =>
        cases b
        · rw [show dumpVal (Json.bool false) = [102, 97, 108, 115, 101] from rfl]
          exact print_cons (by omega) (print_cons (by omega) (print_cons (by omega)
            (print_cons (by omega) (print_cons (by omega) print_nil))))
        · rw [show dumpVal (Json.bool true) = [116, 114, 117, 101] from rfl]
          exact print_cons (by omega) (print_cons (by omega)
            (print_cons (by omega) (print_cons (by omega) print_nil)))
      | int n =>
        rw [show dumpVal (Json.int n) = intRepr n from rfl]
        exact intRepr_print n
      | str s =>
        rw [show dumpVal (Json.str s) = 34 :: escStringAux s from rfl]
        exact print_cons (by omega) (escStringAux_print s)
      | arr xs =>
        cases xs with
        | nil =>
          rw [show dumpVal (Json.arr []) = [91, 93] from rfl]
          exact print_cons (by omega) (print_cons (by omega) print_nil)
        | cons y ys =>
          have hsz : max (jsizeV y) (jsizeL ys) + 2 ≤ N := by
            have h : jsizeV (Json.arr (y :: ys)) = max (jsizeV y) (jsizeL ys) + 2 := by
              rw [jsizeV, jsizeL]
            omega
          rw [show dumpVal (Json.arr (y :: ys)) = 91 :: (dumpVal y ++ dumpItems ys) from rfl]
          exact print_cons (by omega)
            (print_append ((ih (jsizeV y) (by omega)).1 y le_rfl)
              ((ih (jsizeL ys) (by omega)).2.1 ys le_rfl))
      | obj ms =>
        cases ms with
        | nil =>
          rw [show dumpVal (Json.obj []) = [123, 125] from rfl]
          exact print_cons (by omega) (print_cons (by omega) print_nil)
        | cons kv ms2 =>
          obtain ⟨k, v⟩ := kv
          have hsz : max (jsizeV v) (jsizeM ms2) + 2 ≤ N := by
            have h : jsizeV (Json.obj ((k, v) :: ms2)) = max (jsizeV v) (jsizeM ms2) + 2 := by
              rw [jsizeV, jsizeM]
            omega
          have hmem : ∀ x ∈ dumpMember (k, v), 32 ≤ x ∧ x ≤ 126 := by
            rw [show dumpMember (k, v) = (34 :: escStringAux k) ++ (58 :: 32 :: dumpVal v)
              from rfl]
            exact print_append (print_cons (by omega) (escStringAux_print k))
              (print_cons (by omega) (print_cons (by omega)
                ((ih (jsizeV v) (by omega)).1 v le_rfl)))
          rw [show dumpVal (Json.obj ((k, v) :: ms2))
              = 123 :: (dumpMember (k, v) ++ dumpMembers ms2) from rfl]
          exact print_cons (by omega)
            (print_append hmem ((ih (jsizeM ms2) (by omega)).2.2 ms2 le_rfl))
    · intro xs hxs
      cases xs with
      | nil =>
        rw [show dumpItems [] = [93] from rfl]
        exact print_cons (by omega) print_nil
      | cons y ys =>
        have hsz : max (jsizeV y) (jsizeL ys) + 1 ≤ N := by
          have h : jsizeL (y :: ys) = max (jsizeV y) (jsizeL ys) + 1 := by rw [jsizeL]
          omega
        rw [show dumpItems (y :: ys) = 44 :: 32 :: (dumpVal y ++ dumpItems ys) from rfl]
        exact print_cons (by omega) (print_cons (by omega)
          (print_append ((ih (jsizeV y) (by omega)).1 y le_rfl)
            ((ih (jsizeL ys) (by omega)).2.1 ys le_rfl)))
    · intro ms hms
      cases ms with
      | nil =>
        rw [show dumpMembers [] = [125] from rfl]
        exact print_cons (by omega) print_nil
      | cons kv ms2 =>
        obtain ⟨k, v⟩ := kv
        have hsz : max (jsizeV v) (jsizeM ms2) + 1 ≤ N := by
          have h : jsizeM ((k, v) :: ms2) = max (jsizeV v) (jsizeM ms2) + 1 := by rw [jsizeM]
          omega
        have hmem : ∀ x ∈ dumpMember (k, v), 32 ≤ x ∧ x ≤ 126 := by
          rw [show dumpMember (k, v) = (34 :: escStringAux k) ++ (58 :: 32 :: dumpVal v)
            from rfl]
          exact print_append (print_cons (by omega) (escStringAux_print k))
            (print_cons (by omega) (print_cons (by omega)
              ((ih (jsizeV v) (by omega)).1 v le_rfl)))
        rw [show dumpMembers ((k, v) :: ms2)
            = 44 :: 32 :: (dumpMember (k, v) ++ dumpMembers ms2) from rfl]
        exact print_cons (by omega) (print_cons (by omega)
          (print_append hmem ((ih (jsizeM ms2) (by omega)).2.2 ms2 le_rfl)))

theorem dumpVal_print (m : Json) : ∀ x ∈ dumpVal m, 32 ≤ x ∧ x ≤ 126 :=
  (dump_print_all (jsizeV m)).1 m le_rfl

theorem natRepr_ne_nil (n : Nat) : natRepr n ≠ [] := by
  obtain ⟨c, r, hrep, -, -, -⟩ := natReprAux_shape n []
  rw [natRepr, hrep]
  simp

theorem dumpVal_length_pos (m : Json) : 1 ≤ (dumpVal m).length := by
  cases m with
  | null => rw [show dumpVal Json.null = [110, 117, 108, 108] from rfl]; simp
  | bool b =>
    cases b
    · rw [show dumpVal (Json.bool false) = [102, 97, 108, 115, 101] from rfl]; simp
    · rw [show dumpVal (Json.bool true) = [116, 114, 117, 101] from rfl]; simp
  | int n =>
    rw [show dumpVal (Json.int n) = intRepr n from rfl, intRepr]
    by_cases hi : n < 0
    · rw [if_pos hi]; simp
    · rw [if_neg hi]
      obtain ⟨c, r, hrep, -, -, -⟩ := natReprAux_shape n.toNat []
      rw [natRepr, hrep]
      simp
  | str s => rw [show dumpVal (Json.str s) = 34 :: escStringAux s from rfl]; simp
  | arr xs =>
    cases xs with
    | nil => rw [show dumpVal (Json.arr []) = [91, 93] from rfl]; simp
    | cons y ys =>
      rw [show dumpVal (Json.arr (y :: ys)) = 91 :: (dumpVal y ++ dumpItems ys) from rfl]
      simp
  | obj ms =>
    cases ms with
    | nil => rw [show dumpVal (Json.obj []) = [123, 125] from rfl]; simp
    | cons kv ms2 =>
      rw [show dumpVal (Json.obj (kv :: ms2)) = 123 :: (dumpMember kv ++ dumpMembers ms2)
        from rfl]
      simp

theorem dumpItems_length_pos (xs : List Json) : 1 ≤ (dumpItems xs).length := by
  cases xs with
  | nil => rw [show dumpItems [] = [93] from rfl]; simp
  | cons y ys =>
    rw [show dumpItems (y :: ys) = 44 :: 32 :: (dumpVal y ++ dumpItems ys) from rfl]
    simp

theorem dumpMembers_length_pos (ms : List (List Nat × Json)) :
    1 ≤ (dumpMembers ms).length := by
  cases ms with
  | nil => rw [show dumpMembers [] = [125] from rfl]; simp
  | cons kv ms2 =>
    rw [show dumpMembers (kv :: ms2) = 44 :: 32 :: (dumpMember kv ++ dumpMembers ms2)
      from rfl]
    simp

theorem jsize_le_len_all : ∀ N : Nat,
    (∀ m : Json, jsizeV m ≤ N → jsizeV m ≤ (dumpVal m).length) ∧
    (∀ xs : List Json, jsizeL xs ≤ N → jsizeL xs ≤ (dumpItems xs).length) ∧
    (∀ ms : List (List Nat × Json), jsizeM ms ≤ N → jsizeM ms ≤ (dumpMembers ms).length) := by
  intro N
  induction N using Nat.strong_induction_on with
  | _ N ih =>
    refine ⟨?_, ?_, ?_⟩
    · intro m hm
      cases m with
      | null =>
        rw [show jsizeV Json.null = 1 from rfl]
        exact dumpVal_length_pos Json.null
      | bool b =>
        rw [show jsizeV (Json.bool b) = 1 from rfl]
        exact dumpVal_length_pos (Json.bool b)
      | int n =>
        rw [show jsizeV (Json.int n) = 1 from rfl]
        exact dumpVal_length_pos (Json.int n)
      | str s =>
        rw [show jsizeV (Json.str s) = 1 from rfl]
        exact dumpVal_length_pos (Json.str s)
      | arr xs =>
        cases xs with
        | nil =>
          rw [show jsizeV (Json.arr []) = 2 from rfl,
            show dumpVal (Json.arr []) = [91, 93] from rfl]
          simp
        | cons y ys =>
          have e1 : jsizeV (Json.arr (y :: ys)) = max (jsizeV y) (jsizeL ys) + 2 := by
            rw [jsizeV, jsizeL]
          have e2 : (dumpVal (Json.arr (y :: ys))).length
              = (dumpVal y).length + (dumpItems ys).length + 1 := by
            rw [show dumpVal (Json.arr (y :: ys)) = 91 :: (dumpVal y ++ dumpItems ys) from rfl]
            simp only [List.length_cons, List.length_append]
            try omega
          have h1 := (ih (jsizeV y) (by omega)).1 y le_rfl
          have h2 := (ih (jsizeL ys) (by omega)).2.1 ys le_rfl
          have h3 := dumpVal_length_pos y
          have h4 := dumpItems_length_pos ys
          omega
      | obj ms =>
        cases ms with
        | nil =>
          rw [show jsizeV (Json.obj []) = 2 from rfl,
            show dumpVal (Json.obj []) = [123, 125] from rfl]
          simp
        | cons kv ms2 =>
          obtain ⟨k, v⟩ := kv
          have e1 : jsizeV (Json.obj ((k, v) :: ms2)) = max (jsizeV v) (jsizeM ms2) + 2 := by
            rw [jsizeV, jsizeM]
          have e2 : (dumpVal (Json.obj ((k, v) :: ms2))).length
              = (dumpMember (k, v)).length + (dumpMembers ms2).length + 1 := by
            rw [show dumpVal (Json.obj ((k, v) :: ms2))
                = 123 :: (dumpMember (k, v) ++ dumpMembers ms2) from rfl]
            simp only [List.length_cons, List.length_append]
            try omega
          have e3 : (dumpVal v).length + 3 ≤ (dumpMember (k, v)).length := by
            rw [show dumpMember (k, v) = (34 :: escStringAux k) ++ (58 :: 32 :: dumpVal v)
              from rfl]
            simp only [List.length_append, List.length_cons]
            try omega
          have h1 := (ih (jsizeV v) (by omega)).1 v le_rfl
          have h2 := (ih (jsizeM ms2) (by omega)).2.2 ms2 le_rfl
          have h4 := dumpMembers_length_pos ms2
          omega
    · intro xs hxs
      cases xs with
      | nil =>
        rw [show jsizeL ([] : List Json) = 1 from rfl, show dumpItems [] = [93] from rfl]
        simp
      | cons y ys =>
        have e1 : jsizeL (y :: ys) = max (jsizeV y) (jsizeL ys) + 1 := by rw [jsizeL]
        have e2 : (dumpItems (y :: ys)).length
            = (dumpVal y).length + (dumpItems ys).length + 2 := by
          rw [show dumpItems (y :: ys) = 44 :: 32 :: (dumpVal y ++ dumpItems ys) from rfl]
          simp only [List.length_cons, List.length_append]
          try omega
        have h1 := (ih (jsizeV y) (by omega)).1 y le_rfl
        have h2 := (ih (jsizeL ys) (by omega)).2.1 ys le_rfl
        omega
    · intro ms hms
      cases ms with
      | nil =>
        rw [show jsizeM ([] : List (List Nat × Json)) = 1 from rfl,
          show dumpMembers [] = [125] from rfl]
        simp
      | cons kv ms2 =>
        obtain ⟨k, v⟩ := kv
        have e1 : jsizeM ((k, v) :: ms2) = max (jsizeV v) (jsizeM ms2) + 1 := by
          rw [jsizeM]
        have e2 : (dumpMembers ((k, v) :: ms2)).length
            = (dumpMember (k, v)).length + (dumpMembers ms2).length + 2 := by
          rw [show dumpMembers ((k, v) :: ms2)
              = 44 :: 32 :: (dumpMember (k, v) ++ dumpMembers ms2) from rfl]
          simp only [List.length_cons, List.length_append]
          try omega
        have e3 : (dumpVal v).length + 3 ≤ (dumpMember (k, v)).length := by
          rw [show dumpMember (k, v) = (34 :: escStringAux k) ++ (58 :: 32 :: dumpVal v)
            from rfl]
          simp only [List.length_append, List.length_cons]
          try omega
        have h1 := (ih (jsizeV v) (by omega)).1 v le_rfl
        have h2 := (ih (jsizeM ms2) (by omega)).2.2 ms2 le_rfl
        omega

theorem jsizeV_le_length (m : Json) : jsizeV m ≤ (dumpVal m).length :=
  (jsize_le_len_all (jsizeV m)).1 m le_rfl

theorem dump_head (m : Json) :
    ∃ c r, dumpVal m = c :: r ∧ isWsB c = false ∧ c ≠ 93 := by
  cases m with
  | null => exact ⟨110, [117, 108, 108], rfl, by decide, by decide⟩
  | bool b =>
    cases b
    · exact ⟨102, [97, 108, 115, 101], rfl, by decide, by decide⟩
    · exact ⟨116, [114, 117, 101], rfl, by decide, by decide⟩
  | int n =>
    by_cases hi : n < 0
    · refine ⟨45, natRepr n.natAbs, ?_, by decide, by decide⟩
      rw [show dumpVal (Json.int n) = intRepr n from rfl, intRepr, if_pos hi]
    · obtain ⟨c, r, hrep, h48, h57, -⟩ := natReprAux_shape n.toNat []
      refine ⟨c, r, ?_, ?_, by omega⟩
      · rw [show dumpVal (Json.int n) = intRepr n from rfl, intRepr, if_neg hi, natRepr, hrep]
      · simp [isWsB]
        omega
  | str s => exact ⟨34, escStringAux s, rfl, by decide, by decide⟩
  | arr xs =>
    cases xs with
    | nil => exact ⟨91, [93], rfl, by decide, by decide⟩
    | cons y ys => exact ⟨91, dumpVal y ++ dumpItems ys, rfl, by decide, by decide⟩
  | obj ms =>
    cases ms with
    | nil => exact ⟨123, [125], rfl, by decide, by decide⟩
    | cons kv ms2 =>
      exact ⟨123, dumpMember kv ++ dumpMembers ms2, rfl, by decide, by decide⟩

theorem escStringAux_last (s : List Nat) : (escStringAux s).getLast? = some 34 := by
  induction s with
  | nil => rfl
  | cons c cs ih =>
    rw [escStringAux]
    have hne : escStringAux cs ≠ [] := by
      intro h
      rw [h] at ih
      simp at ih
    rw [List.getLast?_append_of_ne_nil _ hne, ih]

theorem dumpItems_last (xs : List Json) : (dumpItems xs).getLast? = some 93 := by
  induction xs with
  | nil => rfl
  | cons y ys ih =>
    rw [show dumpItems (y :: ys) = [44, 32] ++ (dumpVal y ++ dumpItems ys) from rfl]
    have hne2 : dumpItems ys ≠ [] := by
      intro h
      rw [h] at ih
      simp at ih
    have hne1 : dumpVal y ++ dumpItems ys ≠ [] := by simp [hne2]
    rw [List.getLast?_append_of_ne_nil _ hne1, List.getLast?_append_of_ne_nil _ hne2, ih]

theorem dumpMembers_last (ms : List (List Nat × Json)) :
    (dumpMembers ms).getLast? = some 125 := by
  induction ms with
  | nil => rfl
  | cons kv ms2 ih =>
    rw [show dumpMembers (kv :: ms2) = [44, 32] ++ (dumpMember kv ++ dumpMembers ms2) from rfl]
    have hne2 : dumpMembers ms2 ≠ [] := by
      intro h
      rw [h] at ih
      simp at ih
    have hne1 : dumpMember kv ++ dumpMembers ms2 ≠ [] := by simp [hne2]
    rw [List.getLast?_append_of_ne_nil _ hne1, List.getLast?_append_of_ne_nil _ hne2, ih]

theorem natRepr_last (n : Nat) :
    ∃ d, (natRepr n).getLast? = some d ∧ 48 ≤ d ∧ d ≤ 57 := by
  rcases h : (natRepr n).getLast? with _ | d
  · exact absurd (List.getLast?_eq_none_iff.mp h) (natRepr_ne_nil n)
  · have hd : d ∈ natRepr n := List.mem_of_mem_getLast? (by simp [h])
    exact ⟨d, rfl, natRepr_digits n d hd⟩

theorem dump_last (m : Json) (d : Nat) (h : (dumpVal m).getLast? = some d) :
    isWsB d = false := by
  cases m with
  | null =>
    rw [show dumpVal Json.null = [110, 117, 108, 108] from rfl] at h
    have : d = 108 := by simpa using h.symm
    subst this
    decide
  | bool b =>
    cases b
    · rw [show dumpVal (Json.bool false) = [102, 97, 108, 115, 101] from rfl] at h
      have : d = 101 := by simpa using h.symm
      subst this
      decide
    · rw [show dumpVal (Json.bool true) = [116, 114, 117, 101] from rfl] at h
      have : d = 101 := by simpa using h.symm
      subst this
      decide
  | int n =>
    obtain ⟨e, he, h48, h57⟩ := natRepr_last n.natAbs
    obtain ⟨e2, he2, h48b, h57b⟩ := natRepr_last n.toNat
    rw [show dumpVal (Json.int n) = intRepr n from rfl, intRepr] at h
    by_cases hi : n < 0
    · rw [if_pos hi, show (45 :: natRepr n.natAbs) = [45] ++ natRepr n.natAbs from rfl,
        List.getLast?_append_of_ne_nil _ (natRepr_ne_nil n.natAbs), he] at h
      have : e = d := by simpa using h
      simp [isWsB]
      omega
    · rw [if_neg hi, he2] at h
      have : e2 = d := by simpa using h
      simp [isWsB]
      omega
  | str s =>
    rw [show dumpVal (Json.str s) = [34] ++ escStringAux s from rfl,
      List.getLast?_append_of_ne_nil _ (by
        intro hx
        have := escStringAux_last s
        rw [hx] at this
        simp at this), escStringAux_last] at h
    have : d = 34 := by simpa using h.symm
    subst this
    decide
  | arr xs =>
    cases xs with
    | nil =>
      rw [show dumpVal (Json.arr []) = [91, 93] from rfl] at h
      have : d = 93 := by simpa using h.symm
      subst this
      decide
    | cons y ys =>
      have hne2 : dumpItems ys ≠ [] := by
        intro hx
        have := dumpItems_last ys
        rw [hx] at this
        simp at this
      rw [show dumpVal (Json.arr (y :: ys)) = [91] ++ (dumpVal y ++ dumpItems ys) from rfl,
        List.getLast?_append_of_ne_nil _ (by simp [hne2]),
        List.getLast?_append_of_ne_nil _ hne2, dumpItems_last] at h
      have : d = 93 := by simpa using h.symm
      subst this
      decide
  | obj ms =>
    cases ms with
    | nil =>
      rw [show dumpVal (Json.obj []) = [123, 125] from rfl] at h
      have : d = 125 := by simpa using h.symm
      subst this
      decide
    | cons kv ms2 =>
      have hne2 : dumpMembers ms2 ≠ [] := by
        intro hx
        have := dumpMembers_last ms2
        rw [hx] at this
        simp at this
      rw [show dumpVal (Json.obj (kv :: ms2)) = [123] ++ (dumpMember kv ++ dumpMembers ms2)
          from rfl,
        List.getLast?_append_of_ne_nil _ (by simp [hne2]),
        List.getLast?_append_of_ne_nil _ hne2, dumpMembers_last] at h
      have : d = 125 := by simpa using h.symm
      subst this
      decide

theorem numBoundary_items (xs : List Json) (rest : List Nat) :
    numBoundaryB (dumpItems xs ++ rest) = true := by
  cases xs <;> rfl

theorem numBoundary_members (ms : List (List Nat × Json)) (rest : List Nat) :
    numBoundaryB (dumpMembers ms ++ rest) = true := by
  cases ms <;> rfl

theorem escStringAux_len (s : List Nat) : s.length ≤ (escStringAux s).length := by
  induction s with
  | nil => simp
  | cons c cs ih =>
    rw [escStringAux]
    have h1 := escChar_ne_nil c
    simp only [List.length_cons, List.length_append]
    omega

theorem pv_null (f : Nat) (rest : List Nat) :
    parseValue (f + 1) (dumpVal Json.null ++ rest) = some (Json.null, rest) := by
  rw [show dumpVal Json.null = [110, 117, 108, 108] from rfl]
  simp [parseValue, skipWs, isWsB, dropLit]

theorem pv_true (f : Nat) (rest : List Nat) :
    parseValue (f + 1) (dumpVal (Json.bool true) ++ rest) = some (Json.bool true, rest) := by
  rw [show dumpVal (Json.bool true) = [116, 114, 117, 101] from rfl]
  simp [parseValue, skipWs, isWsB, dropLit]

theorem pv_false (f : Nat) (rest : List Nat) :
    parseValue (f + 1) (dumpVal (Json.bool false) ++ rest) = some (Json.bool false, rest) := by
  rw [show dumpVal (Json.bool false) = [102, 97, 108, 115, 101] from rfl]
  simp [parseValue, skipWs, isWsB, dropLit]

theorem pv_str (f : Nat) (s : List Nat) (rest : List Nat) (hwf : wfStr s = true) :
    parseValue (f + 1) (dumpVal (Json.str s) ++ rest) = some (Json.str s, rest) := by
  rw [show dumpVal (Json.str s) = 34 :: escStringAux s from rfl]
  have hfu : s.length < (escStringAux s ++ rest).length + 1 := by
    have h1 := escStringAux_len s
    simp only [List.length_append]
    omega
  simp only [List.cons_append]
  simp [parseValue, skipWs, isWsB,
    parseStringBody_esc s ((escStringAux s).length + rest.length + 1) rest hwf
      (by have h1 := escStringAux_len s; omega)]

theorem pv_int (f : Nat) (i : Int) (rest : List Nat) (hb : numBoundaryB rest = true) :
    parseValue (f + 1) (dumpVal (Json.int i) ++ rest) = some (Json.int i, rest) := by
  rw [show dumpVal (Json.int i) = intRepr i from rfl]
  by_cases hi : i < 0
  · have h45 : intRepr i = 45 :: natRepr i.natAbs := by rw [intRepr, if_pos hi]
    rw [h45]
    simp only [List.cons_append]
    simp only [parseValue, skipWs, isWsB]
    norm_num
    rw [← List.cons_append, ← h45, parseNumberTok_intRepr i rest hb]
  · obtain ⟨c, r, hrep, h48, h57, -⟩ := natReprAux_shape i.toNat []
    have hrepn : intRepr i = c :: r := by rw [intRepr, if_neg hi, natRepr, hrep]
    rw [hrepn]
    simp only [List.cons_append]
    have hskip : skipWs (c :: (r ++ rest)) = c :: (r ++ rest) :=
      skipWs_cons_nws _ (by simp [isWsB]; omega)
    have h110 : ¬c = 110 := by omega
    have h116 : ¬c = 116 := by omega
    have h102 : ¬c = 102 := by omega
    have h34 : ¬c = 34 := by omega
    have h91 : ¬c = 91 := by omega
    have h123 : ¬c = 123 := by omega
    have hdig : isDigitB c = true := by simp [isDigitB]; omega
    simp only [parseValue, hskip, h110, h116, h102, h34, h91, h123, hdig,
      if_false, if_true, Bool.or_true, or_true]
    rw [← List.cons_append, ← hrepn, parseNumberTok_intRepr i rest hb]
    rfl

theorem parse_dump_all : ∀ fuel : Nat,
    (∀ m rest, wfJson m = true → jsizeV m ≤ fuel → numBoundaryB rest = true →
       parseValue fuel (dumpVal m ++ rest) = some (m, rest)) ∧
    (∀ x xs rest, wfJson x = true → wfList xs = true → jsizeL (x :: xs) ≤ fuel →
       numBoundaryB rest = true →
       parseItems fuel (dumpVal x ++ (dumpItems xs ++ rest)) = some (x :: xs, rest)) ∧
    (∀ k v ms rest, wfStr k = true → wfJson v = true → wfMembers ms = true →
       jsizeM ((k, v) :: ms) ≤ fuel → numBoundaryB rest = true →
       parseMembers fuel (dumpMember (k, v) ++ (dumpMembers ms ++ rest))
         = some ((k, v) :: ms, rest)) := by
  intro fuel
  induction fuel with
  | zero =>
    refine ⟨?_, ?_, ?_⟩
    · intro m rest hwf hsz hb
      have := jsizeV_pos m
      omega
    · intro x xs rest hwx hwxs hsz hb
      have := jsizeL_pos (x :: xs)
      omega
    · intro k v ms rest hk hv hms hsz hb
      have := jsizeM_pos ((k, v) :: ms)
      omega
  | succ f ih =>
    obtain ⟨ihV, ihI, ihM⟩ := ih
    refine ⟨?_, ?_, ?_⟩
    · intro m rest hwf hsz hb
      cases m with
      | null => exact pv_null f rest
      | bool b =>
        cases b
        · exact pv_false f rest
        · exact pv_true f rest
      | int n => exact pv_int f n rest hb
      | str s => exact pv_str f s rest hwf
      | arr xs =>
        cases xs with
        | nil =>
          rw [show dumpVal (Json.arr []) = [91, 93] from rfl]
          simp [parseValue, skipWs, isWsB]
        | cons x xs =>
          have hwfa : wfList (x :: xs) = true := hwf
          rw [wfList, Bool.and_eq_true] at hwfa
          have e : jsizeV (Json.arr (x :: xs)) = jsizeL (x :: xs) + 1 := by rw [jsizeV]
          have hI := ihI x xs rest hwfa.1 hwfa.2 (by omega) hb
          obtain ⟨c0, r0, hrep0, hws0, h93⟩ := dump_head x
          have hrest2 : dumpVal x ++ (dumpItems xs ++ rest)
              = c0 :: (r0 ++ (dumpItems xs ++ rest)) := by
            rw [hrep0, List.cons_append]
          have hI2 : parseItems f (c0 :: (r0 ++ (dumpItems xs ++ rest)))
              = some (x :: xs, rest) := by
            rw [← hrest2]
            exact hI
          have hws0p : ¬(((c0 = 32 ∨ c0 = 9) ∨ c0 = 10) ∨ c0 = 13) := by
            simp [isWsB] at hws0
            tauto
          rw [show dumpVal (Json.arr (x :: xs)) = 91 :: (dumpVal x ++ dumpItems xs) from rfl]
          simp only [List.cons_append, List.append_assoc]
          rw [hrest2]
          simp [parseValue, skipWs, isWsB, hws0, hws0p, h93, hI2]
      | obj ms =>
        cases ms with
        | nil =>
          rw [show dumpVal (Json.obj []) = [123, 125] from rfl]
          simp [parseValue, skipWs, isWsB]
        | cons kv ms2 =>
          obtain ⟨k, v⟩ := kv
          have hwfo : wfMembers ((k, v) :: ms2) = true := hwf
          rw [wfMembers, Bool.and_eq_true, Bool.and_eq_true] at hwfo
          obtain ⟨⟨hk, hv⟩, hms⟩ := hwfo
          have e : jsizeV (Json.obj ((k, v) :: ms2)) = jsizeM ((k, v) :: ms2) + 1 := by
            rw [jsizeV]
          have hM := ihM k v ms2 rest hk hv hms (by omega) hb
          have hshape : dumpMember (k, v) ++ (dumpMembers ms2 ++ rest)
              = 34 :: (escStringAux k ++ ((58 :: 32 :: dumpVal v) ++ (dumpMembers ms2 ++ rest))) := by
            rw [show dumpMember (k, v) = (34 :: escStringAux k) ++ (58 :: 32 :: dumpVal v)
              from rfl]
            simp
          have hM2 : parseMembers f
              (34 :: (escStringAux k ++ ((58 :: 32 :: dumpVal v) ++ (dumpMembers ms2 ++ rest))))
              = some ((k, v) :: ms2, rest) := by
            rw [← hshape]
            exact hM
          rw [show dumpVal (Json.obj ((k, v) :: ms2))
              = 123 :: (dumpMember (k, v) ++ dumpMembers ms2) from rfl]
          simp only [List.cons_append, List.append_assoc]
          rw [show dumpMember (k, v) ++ (dumpMembers ms2 ++ rest)
              = 34 :: (escStringAux k ++ ((58 :: 32 :: dumpVal v) ++ (dumpMembers ms2 ++ rest)))
            from hshape]
          simp [parseValue, skipWs, isWsB, hM2]
          exact hM2
    · intro x xs rest hwx hwxs hsz hb
      have e : jsizeL (x :: xs) = max (jsizeV x) (jsizeL xs) + 1 := by rw [jsizeL]
      have hV := ihV x (dumpItems xs ++ rest) hwx (by omega) (numBoundary_items xs rest)
      simp only [parseItems]
      rw [hV]
      cases xs with
      | nil =>
        rw [show dumpItems ([] : List Json) = [93] from rfl]
        simp [skipWs, isWsB]
      | cons y ys =>
        have hwfl : wfList (y :: ys) = true := hwxs
        rw [wfList, Bool.and_eq_true] at hwfl
        have e2 : jsizeL (y :: ys) = max (jsizeV y) (jsizeL ys) + 1 := by rw [jsizeL]
        have hI := ihI y ys rest hwfl.1 hwfl.2 (by omega) hb
        rw [show dumpItems (y :: ys) = 44 :: 32 :: (dumpVal y ++ dumpItems ys) from rfl]
        simp only [List.cons_append, List.append_assoc]
        simp [skipWs, isWsB, parseItems_ws, hI]
    · intro k v ms rest hk hv hms hsz hb
      have e : jsizeM ((k, v) :: ms) = max (jsizeV v) (jsizeM ms) + 1 := by rw [jsizeM]
      have hshape : dumpMember (k, v) ++ (dumpMembers ms ++ rest)
          = 34 :: (escStringAux k ++ ((58 :: 32 :: dumpVal v) ++ (dumpMembers ms ++ rest))) := by
        rw [show dumpMember (k, v) = (34 :: escStringAux k) ++ (58 :: 32 :: dumpVal v)
          from rfl]
        simp
      have hPS := parseStringBody_esc k
        ((escStringAux k ++ ((58 :: 32 :: dumpVal v) ++ (dumpMembers ms ++ rest))).length + 1)
        ((58 :: 32 :: dumpVal v) ++ (dumpMembers ms ++ rest)) hk
        (by
          have h1 := escStringAux_len k
          simp only [List.length_append]
          omega)
      have hV := ihV v (dumpMembers ms ++ rest) hv (by omega) (numBoundary_members ms rest)
      rw [hshape]
      simp only [parseMembers]
      rw [skipWs_cons_nws _ (by decide)]
      simp only [if_pos rfl]
      rw [hPS]
      simp only [List.cons_append]
      rw [skipWs_cons_nws _ (by decide)]
      simp only [if_pos rfl]
      rw [show (32 :: (dumpVal v ++ (dumpMembers ms ++ rest))) =
        32 :: (dumpVal v ++ (dumpMembers ms ++ rest)) from rfl, parseValue_ws, hV]
      cases ms with
      | nil =>
        rw [show dumpMembers ([] : List (List Nat × Json)) = [125] from rfl]
        simp [skipWs, isWsB]
      | cons kv2 ms2 =>
        obtain ⟨k2, v2⟩ := kv2
        have hwfm : wfMembers ((k2, v2) :: ms2) = true := hms
        rw [wfMembers, Bool.and_eq_true, Bool.and_eq_true] at hwfm
        obtain ⟨⟨hk2, hv2⟩, hms2⟩ := hwfm
        have e2 : jsizeM ((k2, v2) :: ms2) = max (jsizeV v2) (jsizeM ms2) + 1 := by
          rw [jsizeM]
        have hM := ihM k2 v2 ms2 rest hk2 hv2 hms2 (by omega) hb
        rw [show dumpMembers ((k2, v2) :: ms2)
            = 44 :: 32 :: (dumpMember (k2, v2) ++ dumpMembers ms2) from rfl]
        simp only [List.cons_append, List.append_assoc]
        simp [skipWs, isWsB, parseMembers_ws, hM]

theorem jsonLoads_dumpVal (m : Json) (h : wfJson m = true) :
    jsonLoads (dumpVal m) = some m := by
  unfold jsonLoads
  have hf := (parse_dump_all ((dumpVal m).length + 1)).1 m [] h
    (le_trans (jsizeV_le_length m) (by omega)) rfl
  rw [List.append_nil] at hf
  rw [hf]
  rfl

theorem utf8Encode_ascii (cs : List Nat) (h : ∀ c ∈ cs, c < 128) :
    utf8Encode cs = cs := by
  induction cs with
  | nil => rfl
  | cons c cs ih =>
    have hc : c < 128 := h c (by simp)
    rw [utf8Encode, show utf8EncodeChar c = [c] from by rw [utf8EncodeChar, if_pos hc],
      ih (by intro x hx; exact h x (by simp [hx]))]
    rfl

theorem utf8_roundtrip (cs : List Nat) (h : ∀ c ∈ cs, c < 128) :
    ∀ fuel, cs.length < fuel → utf8Decode fuel (utf8Encode cs) = some cs := by
  induction cs with
  | nil =>
    intro fuel hf
    cases fuel with
    | zero => omega
    | succ f => rfl
  | cons c cs ih =>
    intro fuel hf
    cases fuel with
    | zero => omega
    | succ f =>
      have hc : c < 128 := h c (by simp)
      rw [utf8Encode, show utf8EncodeChar c = [c] from by rw [utf8EncodeChar, if_pos hc]]
      simp only [List.cons_append, List.nil_append]
      have ih2 := ih (by intro x hx; exact h x (by simp [hx])) f (by simp at hf; omega)
      rw [utf8Decode.eq_def]
      simp only [if_pos hc, ih2]
      rfl

theorem dropWhile_of_head_nws {l : List Nat}
    (h : ∀ a, l.head? = some a → isWsB a = false) : l.dropWhile isWsB = l := by
  cases l with
  | nil => rfl
  | cons a l => simp [List.dropWhile_cons, h a rfl]

theorem pyStrip_dump (m : Json) : pyStrip (dumpVal m ++ [10]) = dumpVal m := by
  obtain ⟨c0, r0, hrep, hws, -⟩ := dump_head m
  unfold pyStrip
  have h1 : (dumpVal m ++ [10]).dropWhile isWsB = dumpVal m ++ [10] := by
    apply dropWhile_of_head_nws
    intro a ha
    rw [hrep, List.cons_append, List.head?_cons] at ha
    obtain rfl : c0 = a := by simpa using ha
    exact hws
  rw [h1, List.reverse_append]
  rw [show ([10] : List Nat).reverse = [10] from rfl]
  rw [show ([10] : List Nat) ++ (dumpVal m).reverse = 10 :: (dumpVal m).reverse from rfl]
  rw [List.dropWhile_cons]
  rw [if_pos (by decide : isWsB 10 = true)]
  have h2 : (dumpVal m).reverse.dropWhile isWsB = (dumpVal m).reverse := by
    apply dropWhile_of_head_nws
    intro a ha
    rw [List.head?_reverse] at ha
    exact dump_last m a ha
  rw [h2, List.reverse_reverse]

theorem socketDecode_socketEncode (m : Json) (h : wfJson m = true) :
    socketDecode (socketEncode m) = some m := by
  have hA : ∀ c ∈ dumpVal m, c < 128 := by
    intro c hc
    have := dumpVal_print m c hc
    omega
  have hR : utf8Decode ((dumpVal m).length + 1) (dumpVal m) = some (dumpVal m) := by
    have hrt := utf8_roundtrip (dumpVal m) hA ((dumpVal m).length + 1) (by omega)
    rwa [utf8Encode_ascii _ hA] at hrt
  unfold socketDecode socketEncode
  rw [utf8Encode_ascii _ hA, hR, Option.some_bind]
  exact jsonLoads_dumpVal m h

theorem serverDecode_serverEncode (m : Json) (h : wfJson m = true) :
    serverDecode (serverEncode m) = some m := by
  have hA : ∀ c ∈ dumpVal m, c < 128 := by
    intro c hc
    have := dumpVal_print m c hc
    omega
  have hR : utf8Decode ((dumpVal m).length + 1) (dumpVal m) = some (dumpVal m) := by
    have hrt := utf8_roundtrip (dumpVal m) hA ((dumpVal m).length + 1) (by omega)
    rwa [utf8Encode_ascii _ hA] at hrt
  unfold serverDecode serverEncode
  rw [utf8Encode_ascii _ hA, hR, Option.some_bind]
  exact jsonLoads_dumpVal m h

theorem serialDecode_serialEncode (m : Json) (h : wfJson m = true) :
    serialDecode (serialEncode m) = some m := by
  have hA : ∀ c ∈ dumpVal m ++ [10], c < 128 := by
    intro c hc
    rcases List.mem_append.mp hc with hc | hc
    · have := dumpVal_print m c hc
      omega
    · simp at hc
      omega
  have hR : utf8Decode ((dumpVal m ++ [10]).length + 1) (dumpVal m ++ [10])
      = some (dumpVal m ++ [10]) := by
    have hrt := utf8_roundtrip (dumpVal m ++ [10]) hA ((dumpVal m ++ [10]).length + 1)
      (by omega)
    rwa [utf8Encode_ascii _ hA] at hrt
  unfold serialDecode serialEncode
  rw [utf8Encode_ascii _ hA, hR, Option.some_bind, pyStrip_dump m]
  exact jsonLoads_dumpVal m h

theorem utf8EncodeChar_ne_nil (c : Nat) : utf8EncodeChar c ≠ [] := by
  rw [utf8EncodeChar]
  by_cases h1 : c < 128
  · rw [if_pos h1]; simp
  · rw [if_neg h1]
    by_cases h2 : c < 2048
    · rw [if_pos h2]; simp
    · rw [if_neg h2]
      by_cases h3 : c < 65536
      · rw [if_pos h3]; simp
      · rw [if_neg h3]; simp

theorem socketEncode_ne_nil (m : Json) : socketEncode m ≠ [] := by
  unfold socketEncode
  obtain ⟨c0, r0, hrep, -, -⟩ := dump_head m
  rw [hrep, utf8Encode]
  simp [utf8EncodeChar_ne_nil c0]

theorem serverEncode_ne_nil (m : Json) : serverEncode m ≠ [] := by
  unfold serverEncode
  obtain ⟨c0, r0, hrep, -, -⟩ := dump_head m
  rw [hrep, utf8Encode]
  simp [utf8EncodeChar_ne_nil c0]

theorem serialEncode_ne_nil (m : Json) : serialEncode m ≠ [] := by
  unfold serialEncode
  obtain ⟨c0, r0, hrep, -, -⟩ := dump_head m
  rw [hrep, List.cons_append, utf8Encode]
  simp [utf8EncodeChar_ne_nil c0]

/-- C1: the wire codec round-trips every well-formed command mapping on
all three bindings.  For the socket client, socket server and serial
bindings, decoding the bytes produced by `send_command`'s encoding with
`receive_data`'s decoding yields the original mapping, and a connected
receiver handed exactly the sent bytes (no transport loss) returns the
original mapping from `receive_data`.  Well-formedness (`wfJson`)
requires strings to be valid Unicode text; integers stand in for JSON
numbers (see the module comment). -/
theorem send_receive_roundtrip (m : Json) (hwf : wfJson m = true) :
    socketDecode (socketEncode m) = some m ∧
    serverDecode (serverEncode m) = some m ∧
    serialDecode (serialEncode m) = some m ∧
    (∀ (s : SocketClientState) (t : ℚ) (src : Addr),
       s.is_connected = true → s.sock = true →
       (socketReceiveData s t (.data (socketEncode m) src)).1 = some m) ∧
    (∀ (s : SocketServerState) (t : ℚ) (src : Addr),
       s.is_connected = true → s.protocol = "UDP" →
       (serverReceiveData s t (.data (serverEncode m) src)).1 = some m) ∧
    (∀ (s : SocketServerState) (t : ℚ) (src : Addr),
       s.is_connected = true → s.protocol = "TCP" → s.client_sock = true →
       (serverReceiveData s t (.data (serverEncode m) src)).1 = some m) ∧
    (∀ (s : SerialState) (t : ℚ), serialGuard s = true →
       (serialReceiveData s t (.bytes (serialEncode m))).1 = some m) := by
  refine ⟨socketDecode_socketEncode m hwf, serverDecode_serverEncode m hwf,
    serialDecode_serialEncode m hwf, ?_, ?_, ?_, ?_⟩
  · intro s t src hc hs
    simp [socketReceiveData, hc, hs, socketEncode_ne_nil m,
      socketDecode_socketEncode m hwf]
  · intro s t src hc hp
    simp [serverReceiveData, hc, hp, serverEncode_ne_nil m,
      serverDecode_serverEncode m hwf]
  · intro s t src hc hp hcs
    simp [serverReceiveData, hc, hp, hcs, serverEncode_ne_nil m,
      serverDecode_serverEncode m hwf]
  · intro s t hg
    rcases hp : s.serial_port with _ | hh
    · rw [serialGuard, hp] at hg
      simp at hg
    · simp [serialReceiveData, hg, hp, serialEncode_ne_nil m,
        serialDecode_serialEncode m hwf]

/-- C1 witness: the round trip evaluated on the concrete example command
and concrete connected receiver states for all three bindings. -/
theorem send_receive_roundtrip_witness :
    wfJson cmdEx = true ∧
    socketDecode (socketEncode cmdEx) = some cmdEx ∧
    serverDecode (serverEncode cmdEx) = some cmdEx ∧
    serialDecode (serialEncode cmdEx) = some cmdEx ∧
    (socketReceiveData clientConnEx 1 (.data (socketEncode cmdEx) ("10.0.0.5", 9999))).1
      = some cmdEx ∧
    (serverReceiveData serverUdpEx 1 (.data (serverEncode cmdEx) ("10.0.0.5", 9999))).1
      = some cmdEx ∧
    (serverReceiveData serverTcpEx 1 (.data (serverEncode cmdEx) ("10.0.0.5", 9999))).1
      = some cmdEx ∧
    (serialReceiveData serialOpenEx 1 (.bytes (serialEncode cmdEx))).1 = some cmdEx := by
  have h := send_receive_roundtrip cmdEx rfl
  exact ⟨rfl, h.1, h.2.1, h.2.2.1,
    h.2.2.2.1 clientConnEx 1 ("10.0.0.5", 9999) rfl rfl,
    h.2.2.2.2.1 serverUdpEx 1 ("10.0.0.5", 9999) rfl rfl,
    h.2.2.2.2.2.1 serverTcpEx 1 ("10.0.0.5", 9999) rfl rfl rfl,
    h.2.2.2.2.2.2 serialOpenEx 1 rfl⟩

end Teleop
